import Mathlib

/-!
# Package fetcher: resolution of unresolved graph nodes

A shallow embedding of `toolkit/tools/pkg/graph/pkgfetcher/pkgfetcher.go`.

* Go strings are Lean strings; the few functions of the Go standard library the
  code calls (`strings.TrimSpace`, `filepath.Join`, `filepath.Base`) are written
  out on character lists for a Unix target.
* The node pointers the Go code mutates in place are passed and returned
  explicitly; the two `map[string]bool` caches are total functions
  `String → Bool` (a missing key reads as `false`, as in Go).
* The external collaborators (repo cloner, competing-package solver, graph
  reader and writer, logger) are oracles: each answer may depend on the whole
  history of calls made so far.  Every call and every log line is appended to
  an event trace, so that "was called", "was called once" and "was logged at
  severity X" are statements about the trace.
* A Go run-time panic that is not a logger call (indexing an empty slice)
  is the result `none`.
-/

namespace Pkgfetcher

/-! ## Go standard library -/

/-- Go `unicode.IsSpace`, the set of characters `strings.TrimSpace` removes. -/
def isSpace (c : Char) : Bool :=
  c == '\t' || c == '\n' || c.toNat == 11 || c.toNat == 12 || c == '\r' || c == ' ' ||
  c.toNat == 0x85 || c.toNat == 0xA0 || c.toNat == 0x1680 ||
  (0x2000 ≤ c.toNat && c.toNat ≤ 0x200A) ||
  c.toNat == 0x2028 || c.toNat == 0x2029 || c.toNat == 0x202F || c.toNat == 0x205F ||
  c.toNat == 0x3000

/-- Go `strings.TrimSpace`: leading and trailing white space removed. -/
def trimSpace (s : String) : String :=
  String.mk ((s.data.dropWhile isSpace).reverse.dropWhile isSpace).reverse

/-- Path elements between separators; `"a//b"` gives `a`, the empty element, `b`. -/
def splitOnSlash : List Char → List (List Char)
  | [] => [[]]
  | c :: cs =>
    match splitOnSlash cs with
    | [] => [[c]]
    | x :: xs => if c = '/' then [] :: x :: xs else (c :: x) :: xs

/-- One element of the path read by `filepath.Clean`; `out` holds the elements
written so far, the last one first.  An empty element and `.` are dropped; `..`
removes the last real element when there is one, is kept in a relative path
that has nothing left to remove, and is dropped at the root. -/
def cleanStep (rooted : Bool) (out : List (List Char)) (el : List Char) : List (List Char) :=
  if el = [] ∨ el = ['.'] then out
  else if el = ['.', '.'] then
    match out with
    | top :: rest =>
      if top ≠ ['.', '.'] then rest
      else if rooted then out else el :: out
    | [] => if rooted then out else [el]
  else el :: out

/-- Elements joined with the separator. -/
def joinElems : List (List Char) → List Char
  | [] => []
  | [x] => x
  | x :: y :: rest => x ++ '/' :: joinElems (y :: rest)

/-- Go `filepath.Clean` on Unix: the shortest path equivalent to `path` by purely
lexical processing. -/
def filepathClean (path : String) : String :=
  if path.data = [] then "."
  else
    let rooted := path.data.head? == some '/'
    let out := (splitOnSlash path.data).foldl (cleanStep rooted) []
    let body := joinElems out.reverse
    let res := if rooted then '/' :: body else body
    if res = [] then "." else String.mk res

/-- Go `strings.Join(elem, "/")`. -/
def joinWithSlash : List String → String
  | [] => ""
  | [x] => x
  | x :: y :: rest => x ++ "/" ++ joinWithSlash (y :: rest)

/-- Go `filepath.Join`: leading empty elements are ignored, the rest is joined
with the separator and cleaned; all elements empty gives the empty string. -/
def filepathJoin : List String → String
  | [] => ""
  | e :: es => if e.data = [] then filepathJoin es else filepathClean (joinWithSlash (e :: es))

/-- Trailing separators removed (first loop of `filepath.Base`). -/
def stripTrailingSlashes (cs : List Char) : List Char :=
  (cs.reverse.dropWhile (fun c => c == '/')).reverse

/-- The part after the last separator (second loop of `filepath.Base`). -/
def lastElement (cs : List Char) : List Char :=
  (cs.reverse.takeWhile (fun c => c != '/')).reverse

/-- Go `filepath.Base` on Unix: the last element of the path. -/
def filepathBase (path : String) : String :=
  if path.data = [] then "."
  else
    let el := lastElement (stripTrailingSlashes path.data)
    if el = [] then "/" else String.mk el

/-! ## Data model -/

/-- Modelled from the spec: the lifecycle state of a node, declared in package
`pkggraph` (`StateUnresolved`, `StateCached`, `StateUpToDate`). -/
inductive NodeState where
  | Unresolved
  | Cached
  | UpToDate
  deriving DecidableEq, Repr

/-- Modelled from the spec: the type of a node, declared in package `pkggraph`
(`TypePreBuilt` and the ordinary type). -/
inductive NodeType where
  | Normal
  | PreBuilt
  deriving DecidableEq, Repr

/-- Modelled from the spec: the versioned package specification of package
`pkgjson`, a name and a version constraint. -/
structure PackageVer where
  Name : String
  Version : String
  Condition : String
  deriving DecidableEq, Repr

/-- Modelled from the spec: one graph vertex of package `pkggraph`.  The Go field
`Type` is `Type_` here, `Type` being reserved. -/
structure PkgNode where
  Id : Nat
  VersionedPkg : PackageVer
  Implicit : Bool
  State : NodeState
  Type_ : NodeType
  RpmPath : String
  deriving DecidableEq, Repr

/-- Modelled from the spec: the configuration surface of the package fetcher
(the fields `pkgfetcher.go` reads from `cfg`). -/
structure Config where
  InputGraph : String
  OutputGraph : String
  InputSummaryFile : String
  OutputSummaryFile : String
  ToolchainManifest : String
  OutDir : String
  TmpDir : String
  WorkerTar : String
  ExistingRpmDir : String
  TlsClientKey : String
  TlsClientCert : String
  RepoFiles : List String
  DisableUpstreamRepos : Bool
  UsePreviewRepo : Bool
  StopOnFailure : Bool

/-- Severity of a log line, lowest first. -/
inductive Level where
  | Debug
  | Info
  | Warn
  | Error
  | Fatal
  | Panic
  deriving DecidableEq, Repr

/-- Severity strictly above informational. -/
def Level.aboveInfo : Level → Bool
  | .Debug => false
  | .Info => false
  | _ => true

/-- A Go `error` value as the code can tell them apart: one returned by a
collaborator, or one of the two the package builds itself. -/
inductive Err where
  | External (msg : String)
  | NoProvider (pkg : PackageVer)
  | CacheFailed
  deriving DecidableEq, Repr

deriving instance DecidableEq for Except

/-- One observable step of a run: a log line (severity and format string) or a
call to a collaborator together with its answer.  For a call that returns only
an `error`, `none` is `nil`. -/
inductive Event where
  | Log (level : Level) (format : String)
  | ReadDOTGraphFile (path : String) (res : Except String (List PkgNode))
  | ReadReservedFilesList (path : String) (res : Except String (List String))
  | Initialize (outDir tmpDir workerTar existingRpmDir : String) (usePreviewRepo : Bool)
      (repoFiles : List String) (res : Option String)
  | AddNetworkFiles (tlsCert tlsKey : String) (res : Option String)
  | Close
  | WhatProvides (pkg : PackageVer) (res : Except String (List String))
  | Clone (cloneDeps : Bool) (name : String) (res : Except String Bool)
  | ResolveCompetingPackages (rootDir : String) (rpmPaths : List String)
      (res : Except String (List String))
  | RestoreClonedRepoContents (file : String) (res : Option String)
  | ConvertDownloadedPackagesIntoRepo (res : Option String)
  | SaveClonedRepoContents (file : String) (res : Option String)
  | WriteDOTGraphFile (nodes : List PkgNode) (path : String) (res : Option String)
  deriving DecidableEq

/-- The external collaborators.  Each takes the events so far, then the
arguments of the call. -/
structure Collaborators where
  ReadDOTGraphFile : List Event → String → Except String (List PkgNode)
  ReadReservedFilesList : List Event → String → Except String (List String)
  Initialize : List Event → String → String → String → String → Bool → List String →
    Option String
  AddNetworkFiles : List Event → String → String → Option String
  WhatProvides : List Event → PackageVer → Except String (List String)
  Clone : List Event → Bool → String → Except String Bool
  ResolveCompetingPackages : List Event → String → List String → Except String (List String)
  RestoreClonedRepoContents : List Event → String → Option String
  ConvertDownloadedPackagesIntoRepo : List Event → Option String
  SaveClonedRepoContents : List Event → String → Option String
  WriteDOTGraphFile : List Event → List PkgNode → String → Option String

/-- The two pass-scoped maps `fetchedPackages` and `prebuiltPackages`. -/
structure Caches where
  fetchedPackages : String → Bool
  prebuiltPackages : String → Bool

/-- Go `m[key] = value`. -/
def mapSet (m : String → Bool) (key : String) (value : Bool) : String → Bool :=
  fun k => if k = key then value else m k

/-- Go `make(map[string]bool)` twice. -/
def Caches.empty : Caches := ⟨fun _ => false, fun _ => false⟩

/-! ## Candidate path selector -/

/-- Source `rpmPackageToRPMPath`: the path of the cloned package,
`filepath.Join(outDir, fmt.Sprintf("%s.rpm", rpmPackage))`. -/
def rpmPackageToRPMPath (rpmPackage outDir : String) : String :=
  filepathJoin [outDir, rpmPackage ++ ".rpm"]

/-- Source `isToolchainPackage`: is the base name of `rpmPath` one of the
toolchain manifest entries. -/
def isToolchainPackage (rpmPath : String) (toolchainRPMs : List String) : Bool :=
  let base := filepathBase rpmPath
  toolchainRPMs.any (fun t => t == base)

/-- What `assignRPMPath` leaves behind: the events, the node and the returned error. -/
structure AssignResult where
  trace : List Event
  node : PkgNode
  err : Option Err

/-- Source `assignRPMPath`.  `rpmPaths[0]` on an empty slice is a run-time
panic, the result `none`. -/
def assignRPMPath (env : Collaborators) (cfg : Config) (tr : List Event) (node : PkgNode)
    (outDir : String) (resolvedPackages : List String) : Option AssignResult :=
  let rpmPaths := resolvedPackages.map (fun p => rpmPackageToRPMPath p outDir)
  match rpmPaths with
  | [] => none
  | first :: _ =>
    let node := { node with RpmPath := first }
    if rpmPaths.length > 1 then
      let tr := tr ++ [Event.Log Level.Debug "Found %d candidates. Resolving."]
      let res := env.ResolveCompetingPackages tr cfg.TmpDir rpmPaths
      let tr := tr ++ [Event.ResolveCompetingPackages cfg.TmpDir rpmPaths res]
      match res with
      | .error e =>
        some ⟨tr ++ [Event.Log Level.Error
          "Failed while trying to pick an RPM providing '%s' from the following RPMs: %v"],
          node, some (Err.External e)⟩
      | .ok resolvedRPMs =>
        match resolvedRPMs with
        | [] =>
          some ⟨tr ++ [Event.Log Level.Error
            "Failed while trying to pick an RPM providing '%s'. No RPM can be installed from the following: %v"],
            node, none⟩
        | r0 :: _ =>
          let tr := if resolvedRPMs.length > 1 then
              tr ++ [Event.Log Level.Warn "Found %d candidates to provide '%s'. Picking the first one."]
            else tr
          some ⟨tr, { node with RpmPath := rpmPackageToRPMPath r0 outDir }, none⟩
    else
      some ⟨tr, node, none⟩

/-! ## Node resolver -/

/-- State of the clone loop of `resolveSingleNode` when it stops: the events, the
caches, the local `preBuilt` and the error that ended it, if any. -/
structure CloneResult where
  trace : List Event
  caches : Caches
  preBuilt : Bool
  err : Option Err

/-- The loop `for _, resolvedPackage := range resolvedPackages` of
`resolveSingleNode`: every provider not marked fetched is cloned with
`cloneDeps = true`; a failing clone ends the loop with its error, a successful
one overwrites `preBuilt` and marks the provider in both maps. -/
def cloneLoop (env : Collaborators) :
    List String → List Event → Caches → Bool → CloneResult
  | [], tr, caches, preBuilt => ⟨tr, caches, preBuilt, none⟩
  | resolvedPackage :: rest, tr, caches, preBuilt =>
    if !caches.fetchedPackages resolvedPackage then
      let res := env.Clone tr true resolvedPackage
      let tr := tr ++ [Event.Clone true resolvedPackage res]
      match res with
      | .error e =>
        ⟨tr ++ [Event.Log Level.Error "Failed to clone '%s' from RPM repo. Error: %s"],
          caches, preBuilt, some (Err.External e)⟩
      | .ok b =>
        cloneLoop env rest
          (tr ++ [Event.Log Level.Debug "Fetched '%s' as potential candidate (is pre-built: %v)."])
          ⟨mapSet caches.fetchedPackages resolvedPackage true,
            mapSet caches.prebuiltPackages resolvedPackage b⟩
          b
    else
      cloneLoop env rest tr caches preBuilt

/-- What `resolveSingleNode` leaves behind. -/
structure NodeResult where
  trace : List Event
  caches : Caches
  node : PkgNode
  err : Option Err

/-- Source `resolveSingleNode`. -/
def resolveSingleNode (env : Collaborators) (cfg : Config) (tr : List Event) (node : PkgNode)
    (toolchainPackages : List String) (caches : Caches) (outDir : String) :
    Option NodeResult :=
  let tr := tr ++ [Event.Log Level.Debug "Adding node %s to the cache",
    Event.Log Level.Debug "Searching for a package which supplies: %s"]
  let res := env.WhatProvides tr node.VersionedPkg
  let tr := tr ++ [Event.WhatProvides node.VersionedPkg res]
  match res with
  | .error e =>
    let lvl := if node.Implicit then Level.Debug else Level.Error
    some ⟨tr ++ [Event.Log lvl "Failed to resolve (%s) to a package. Error: %s"],
      caches, node, some (Err.External e)⟩
  | .ok resolvedPackages =>
    if resolvedPackages.length = 0 then
      some ⟨tr, caches, node, some (Err.NoProvider node.VersionedPkg)⟩
    else
      let cl := cloneLoop env resolvedPackages tr caches false
      match cl.err with
      | some e => some ⟨cl.trace, cl.caches, node, some e⟩
      | none =>
        match assignRPMPath env cfg cl.trace node outDir resolvedPackages with
        | none => none
        | some a =>
          match a.err with
          | some e =>
            some ⟨a.trace ++ [Event.Log Level.Error
              "Failed to find an RPM to provide '%s'. Error: %s"], cl.caches, a.node, some e⟩
          | none =>
            if (cl.preBuilt || cl.caches.prebuiltPackages a.node.RpmPath) &&
                isToolchainPackage a.node.RpmPath toolchainPackages then
              some ⟨a.trace ++ [Event.Log Level.Debug
                  "Using a prebuilt toolchain package to resolve this dependency",
                  Event.Log Level.Info "Choosing '%s' to provide '%s'."],
                ⟨cl.caches.fetchedPackages, mapSet cl.caches.prebuiltPackages a.node.RpmPath true⟩,
                { a.node with State := NodeState.UpToDate, Type_ := NodeType.PreBuilt }, none⟩
            else
              some ⟨a.trace ++ [Event.Log Level.Info "Choosing '%s' to provide '%s'."],
                cl.caches, { a.node with State := NodeState.Cached }, none⟩

/-! ## Resolution driver -/

/-- Source `hasUnresolvedNodes`. -/
def hasUnresolvedNodes (graph : List PkgNode) : Bool :=
  graph.any (fun n => n.State == NodeState.Unresolved)

/-- State of the scan of `resolveGraphNodes`: the nodes as they now are, the
events, the caches and the flag `cachingSucceeded`. -/
structure ScanResult where
  nodes : List PkgNode
  trace : List Event
  caches : Caches
  cachingSucceeded : Bool

/-- The loop `for _, n := range dependencyGraph.AllRunNodes()` of
`resolveGraphNodes`.  The list of dependants that goes into the debug message
of a failed node is not kept. -/
def scanNodes (env : Collaborators) (cfg : Config) (toolchainPackages : List String)
    (outDir : String) :
    List PkgNode → List Event → Caches → Bool → Option ScanResult
  | [], tr, caches, ok => some ⟨[], tr, caches, ok⟩
  | n :: rest, tr, caches, ok =>
    if n.State = NodeState.Unresolved then
      match resolveSingleNode env cfg tr n toolchainPackages caches outDir with
      | none => none
      | some r =>
        let next :=
          match r.err with
          | some _ =>
            scanNodes env cfg toolchainPackages outDir rest
              (r.trace ++ [Event.Log Level.Debug
                "Failed to resolve all nodes in the graph while resolving '%s'"])
              r.caches false
          | none => scanNodes env cfg toolchainPackages outDir rest r.trace r.caches ok
        next.map (fun s => { s with nodes := r.node :: s.nodes })
    else
      (scanNodes env cfg toolchainPackages outDir rest tr caches ok).map
        (fun s => { s with nodes := n :: s.nodes })

/-- What `resolveGraphNodes` leaves behind: the nodes of the graph, the events
and the returned error. -/
structure GraphResult where
  nodes : List PkgNode
  trace : List Event
  err : Option Err

/-- The part of `resolveGraphNodes` after the scan or the restore. -/
def finishRun (env : Collaborators) (outputSummaryFile : String) (stopOnFailure : Bool)
    (nodes : List PkgNode) (tr : List Event) (cachingSucceeded : Bool) : GraphResult :=
  if stopOnFailure && !cachingSucceeded then
    ⟨nodes, tr, some Err.CacheFailed⟩
  else
    let tr := tr ++ [Event.Log Level.Info "Configuring downloaded RPMs as a local repository"]
    let res := env.ConvertDownloadedPackagesIntoRepo tr
    let tr := tr ++ [Event.ConvertDownloadedPackagesIntoRepo res]
    match res with
    | some e =>
      ⟨nodes, tr ++ [Event.Log Level.Error
        "Failed to convert downloaded RPMs into a repo. Error: %s"], some (Err.External e)⟩
    | none =>
      if trimSpace outputSummaryFile ≠ "" then
        let res := env.SaveClonedRepoContents tr outputSummaryFile
        let tr := tr ++ [Event.SaveClonedRepoContents outputSummaryFile res]
        match res with
        | some e =>
          ⟨nodes, tr ++ [Event.Log Level.Error "Failed to save cloned repo contents."],
            some (Err.External e)⟩
        | none => ⟨nodes, tr, none⟩
      else
        ⟨nodes, tr, none⟩

/-- Source `resolveGraphNodes`; the graph is the list `AllRunNodes()` walks.  The
parameter `disableUpstreamRepos` is not read by the body. -/
def resolveGraphNodes (env : Collaborators) (cfg : Config) (tr : List Event)
    (dependencyGraph : List PkgNode) (inputSummaryFile outputSummaryFile : String)
    (toolchainPackages : List String) (outDir : String)
    (_disableUpstreamRepos stopOnFailure : Bool) : Option GraphResult :=
  if trimSpace inputSummaryFile = "" then
    match scanNodes env cfg toolchainPackages outDir dependencyGraph tr Caches.empty true with
    | none => none
    | some s => some (finishRun env outputSummaryFile stopOnFailure s.nodes s.trace s.cachingSucceeded)
  else
    let res := env.RestoreClonedRepoContents tr inputSummaryFile
    let tr := tr ++ [Event.RestoreClonedRepoContents inputSummaryFile res]
    some (finishRun env outputSummaryFile stopOnFailure dependencyGraph tr res.isNone)

/-- How a call ends: it returns its `error` (`none` is `nil`), it panics
(`logger.Log.Panicf` or a run-time panic), or the process exits
(`logger.Log.Fatalf`). -/
inductive Exit where
  | Returned (err : Option Err)
  | Panicked
  | Exited
  deriving DecidableEq, Repr

/-- The events of a call and how it ended. -/
structure RunResult where
  trace : List Event
  exit : Exit

/-- Source `initializeCloner`.  The error of `cloner.Initialize` is kept in `err`
and not looked at; with upstream repositories enabled `err` is then assigned
the result of `cloner.AddNetworkFiles`. -/
def initializeCloner (env : Collaborators) (cfg : Config) (tr : List Event) : RunResult :=
  let res := env.Initialize tr cfg.OutDir cfg.TmpDir cfg.WorkerTar cfg.ExistingRpmDir
    cfg.UsePreviewRepo cfg.RepoFiles
  let tr := tr ++ [Event.Initialize cfg.OutDir cfg.TmpDir cfg.WorkerTar cfg.ExistingRpmDir
    cfg.UsePreviewRepo cfg.RepoFiles res]
  let err := res
  if !cfg.DisableUpstreamRepos then
    let tlsKey := trimSpace cfg.TlsClientKey
    let tlsCert := trimSpace cfg.TlsClientCert
    let res := env.AddNetworkFiles tr tlsCert tlsKey
    let tr := tr ++ [Event.AddNetworkFiles tlsCert tlsKey res]
    let err := res
    match err with
    | some _ =>
      ⟨tr ++ [Event.Log Level.Panic "Failed to customize RPM repo cloner. Error: %s"],
        Exit.Panicked⟩
    | none => ⟨tr, Exit.Returned (err.map Err.External)⟩
  else
    ⟨tr, Exit.Returned (err.map Err.External)⟩

/-- The toolchain manifest as `ResolvePackages` reads it: no file name, no
entries; a file that cannot be read ends the process. -/
def readToolchain (env : Collaborators) (cfg : Config) (tr : List Event) :
    List Event × Option (List String) :=
  let toolchainManifest := cfg.ToolchainManifest
  if toolchainManifest.length > 0 then
    let res := env.ReadReservedFilesList tr toolchainManifest
    let tr := tr ++ [Event.ReadReservedFilesList toolchainManifest res]
    match res with
    | .error _ =>
      (tr ++ [Event.Log Level.Fatal "unable to read toolchain manifest file '%s': %s"], none)
    | .ok toolchainPackages => (tr, some toolchainPackages)
  else
    (tr, some [])

/-- The end of `ResolvePackages`: the graph is written and the result of the
write returned; the deferred `cloner.Close()` runs last. -/
def writeGraph (env : Collaborators) (cfg : Config) (tr : List Event)
    (dependencyGraph : List PkgNode) : RunResult :=
  let res := env.WriteDOTGraphFile tr dependencyGraph cfg.OutputGraph
  ⟨tr ++ [Event.WriteDOTGraphFile dependencyGraph cfg.OutputGraph res, Event.Close],
    Exit.Returned (res.map Err.External)⟩

/-- Source `ResolvePackages`.  The graph is the list of its run nodes, the only
part of it the package reads or changes. -/
def ResolvePackages (env : Collaborators) (cfg : Config) : RunResult :=
  let res := env.ReadDOTGraphFile [] cfg.InputGraph
  let tr := [Event.ReadDOTGraphFile cfg.InputGraph res]
  match res with
  | .error _ =>
    ⟨tr ++ [Event.Log Level.Panic "Failed to read graph to file. Error: %s"], Exit.Panicked⟩
  | .ok dependencyGraph =>
    match readToolchain env cfg tr with
    | (tr, none) => ⟨tr, Exit.Exited⟩
    | (tr, some toolchainPackages) =>
      let ini := initializeCloner env cfg tr
      match ini.exit with
      | Exit.Panicked => ⟨ini.trace, Exit.Panicked⟩
      | Exit.Exited => ⟨ini.trace, Exit.Exited⟩
      | Exit.Returned (some err) =>
        ⟨ini.trace ++ [Event.Log Level.Error "Failed to initialize RPM repo cloner. Error: %s"],
          Exit.Returned (some err)⟩
      | Exit.Returned none =>
        if hasUnresolvedNodes dependencyGraph then
          match resolveGraphNodes env cfg ini.trace dependencyGraph cfg.InputSummaryFile
              cfg.OutputSummaryFile toolchainPackages cfg.OutDir cfg.DisableUpstreamRepos
              cfg.StopOnFailure with
          | none => ⟨ini.trace ++ [Event.Close], Exit.Panicked⟩
          | some g =>
            match g.err with
            | some _ =>
              ⟨g.trace ++ [Event.Log Level.Panic "Failed to resolve graph. Error: %s",
                Event.Close], Exit.Panicked⟩
            | none => writeGraph env cfg g.trace g.nodes
        else
          writeGraph env cfg
            (ini.trace ++ [Event.Log Level.Info "No unresolved packages to cache"])
            dependencyGraph

/-! ## Observations on a trace -/

/-- The events a call added to the history `tr` it started from. -/
def addedTo (tr after : List Event) : List Event := after.drop tr.length

/-- The specification a provider query was made for. -/
def Event.queried : Event → Option PackageVer
  | .WhatProvides pkg _ => some pkg
  | _ => none

/-- The provider queries of a trace, in order. -/
def whatProvidesCalls (tr : List Event) : List PackageVer := tr.filterMap Event.queried

/-- Is the event a clone of the provider `name`. -/
def Event.isCloneOf (name : String) : Event → Bool
  | .Clone _ n _ => n == name
  | _ => false

/-- Number of clone invocations for the provider `name`. -/
def cloneCount (name : String) (tr : List Event) : Nat := tr.countP (Event.isCloneOf name)

/-- The providers a successful provider query returned. -/
def Event.providers : Event → List String
  | .WhatProvides _ (.ok ps) => ps
  | _ => []

/-- Did the event return the provider `name`. -/
def Event.provides (name : String) (e : Event) : Bool := decide (name ∈ e.providers)

/-- Is `name` among the providers some query of the trace returned. -/
def returnedBy (name : String) (tr : List Event) : Bool := tr.any (Event.provides name)

/-- A failed clone. -/
def Event.isCloneFailure : Event → Bool
  | .Clone _ _ (.error _) => true
  | _ => false

/-- An answer of a collaborator that makes `resolveSingleNode` return an error:
the provider query fails or finds nothing, a clone fails, the solver fails. -/
def Event.isFailure : Event → Bool
  | .WhatProvides _ (.error _) => true
  | .WhatProvides _ (.ok []) => true
  | .Clone _ _ (.error _) => true
  | .ResolveCompetingPackages _ _ (.error _) => true
  | _ => false

/-- Repository materialization. -/
def Event.isConvert : Event → Bool
  | .ConvertDownloadedPackagesIntoRepo _ => true
  | _ => false

/-- A failed materialization or a failed snapshot save. -/
def Event.isFinishFailure : Event → Bool
  | .ConvertDownloadedPackagesIntoRepo (some _) => true
  | .SaveClonedRepoContents _ (some _) => true
  | _ => false

/-- A call to the competing-package solver. -/
def Event.isSolverCall : Event → Bool
  | .ResolveCompetingPackages _ _ _ => true
  | _ => false

/-- A step of per-node resolution: provider query, clone or solver call. -/
def Event.isResolution : Event → Bool
  | .WhatProvides _ _ => true
  | .Clone _ _ _ => true
  | .ResolveCompetingPackages _ _ _ => true
  | _ => false

/-- A log line above informational severity. -/
def Event.isLoudLog : Event → Bool
  | .Log lvl _ => lvl.aboveInfo
  | _ => false

/-- The path invariant of a node: `RpmPath` is non-empty exactly when the node
is no longer unresolved. -/
def PathInvariant (n : PkgNode) : Prop := n.RpmPath ≠ "" ↔ n.State ≠ NodeState.Unresolved

instance (n : PkgNode) : Decidable (PathInvariant n) := by
  unfold PathInvariant
  infer_instance

/-- Is the event a restore of the cache from a snapshot. -/
def Event.isRestore : Event → Bool
  | .RestoreClonedRepoContents _ _ => true
  | _ => false

/-- Is the event the write of the graph file. -/
def Event.isWrite : Event → Bool
  | .WriteDOTGraphFile _ _ _ => true
  | _ => false

/-- A provider query that yields no candidate: it fails or returns an empty list. -/
def Event.isEmptyQuery : Event → Bool
  | .WhatProvides _ (.error _) => true
  | .WhatProvides _ (.ok []) => true
  | _ => false

/-- A failed call of the competing-package solver. -/
def Event.isSolverFailure : Event → Bool
  | .ResolveCompetingPackages _ _ (.error _) => true
  | _ => false

/-- Is the event a log line. -/
def Event.isLog : Event → Bool
  | .Log _ _ => true
  | _ => false

/-- A step of per-node resolution or a log line: all that `resolveSingleNode`
and the scan add to the history. -/
def Event.isScanStep (e : Event) : Bool := e.isResolution || e.isLog

/-- Is the event a save of the cache snapshot. -/
def Event.isSave : Event → Bool
  | .SaveClonedRepoContents _ _ => true
  | _ => false

/-- Materialization, snapshot save or a log line: all that the end of
`resolveGraphNodes` adds to the history. -/
def Event.isFinishStep (e : Event) : Bool := e.isConvert || e.isSave || e.isLog

/-- What `ResolvePackages` does before the graph is looked at: it reads the graph
and the manifest, sets up the cloner, and logs. -/
def Event.isSetupStep : Event → Bool
  | .ReadDOTGraphFile _ _ => true
  | .ReadReservedFilesList _ _ => true
  | .Initialize _ _ _ _ _ _ _ => true
  | .AddNetworkFiles _ _ _ => true
  | .Log _ _ => true
  | _ => false

/-- Is the event a write of the graph file that writes other nodes than `graph`
or writes to another file than `path`. -/
def Event.writesOther (graph : List PkgNode) (path : String) : Event → Bool
  | .WriteDOTGraphFile nodes p _ => !(decide (nodes = graph) && decide (p = path))
  | _ => false

/-! ## Sample inputs -/

/-- Collaborators that do not look at the history: the graph file holds `graph`,
the manifest file holds `manifest`, `cloner.Initialize` returns `initErr`, the
provider query, the clone and the solver answer as given, and everything else
succeeds. -/
def fixedCollaborators (graph : List PkgNode) (manifest : List String)
    (initErr : Option String) (provides : PackageVer → Except String (List String))
    (clone : String → Except String Bool)
    (solve : List String → Except String (List String)) : Collaborators where
  ReadDOTGraphFile := fun _ _ => .ok graph
  ReadReservedFilesList := fun _ _ => .ok manifest
  Initialize := fun _ _ _ _ _ _ _ => initErr
  AddNetworkFiles := fun _ _ _ => none
  WhatProvides := fun _ pkg => provides pkg
  Clone := fun _ _ name => clone name
  ResolveCompetingPackages := fun _ _ paths => solve paths
  RestoreClonedRepoContents := fun _ _ => none
  ConvertDownloadedPackagesIntoRepo := fun _ => none
  SaveClonedRepoContents := fun _ _ => none
  WriteDOTGraphFile := fun _ _ _ => none

/-- A cold-path configuration writing below `/out`, upstream repositories
enabled, no snapshot files, no stop on failure. -/
def sampleConfig : Config where
  InputGraph := "in.dot"
  OutputGraph := "out.dot"
  InputSummaryFile := ""
  OutputSummaryFile := ""
  ToolchainManifest := "toolchain.txt"
  OutDir := "/out"
  TmpDir := "/tmp"
  WorkerTar := "worker.tar.gz"
  ExistingRpmDir := "/rpms"
  TlsClientKey := ""
  TlsClientCert := ""
  RepoFiles := []
  DisableUpstreamRepos := false
  UsePreviewRepo := false
  StopOnFailure := false

/-- An unresolved node with no path yet, requiring `name`. -/
def unresolvedNode (id : Nat) (name : String) (implicit : Bool) : PkgNode :=
  ⟨id, ⟨name, "", ""⟩, implicit, NodeState.Unresolved, NodeType.Normal, ""⟩

/-- A provider query that finds the two candidates `a-1` and `a-2` for everything. -/
def twoProviders : PackageVer → Except String (List String) :=
  fun _ => .ok ["a-1", "a-2"]

/-- Collaborators for a node with two candidates of which the solver keeps
`a-2`, then `a-1`. -/
def envTwoInstallable : Collaborators :=
  fixedCollaborators [unresolvedNode 1 "a" false] [] none twoProviders
    (fun _ => .ok false) (fun _ => .ok ["a-2", "a-1"])

/-- Collaborators for a node with two candidates none of which the solver finds
installable: the solver returns an empty list and no error. -/
def envNoneInstallable : Collaborators :=
  fixedCollaborators [unresolvedNode 1 "a" false] [] none twoProviders
    (fun _ => .ok false) (fun _ => .ok [])

/-- Collaborators for a node with two candidates on which the solver fails. -/
def envSolverFails : Collaborators :=
  fixedCollaborators [unresolvedNode 1 "a" false] [] none twoProviders
    (fun _ => .ok false) (fun _ => .error "rpm failed")

/-- Collaborators whose `cloner.Initialize` fails while everything else,
`AddNetworkFiles` included, succeeds; the graph has one unresolved node with one
provider. -/
def envInitFails : Collaborators :=
  fixedCollaborators [unresolvedNode 1 "a" false] [] (some "no worker chroot")
    (fun _ => .ok ["a-1"]) (fun _ => .ok false) (fun _ => .ok [])

/-- Collaborators for the toolchain rule: `x` is provided by `a-1` and `a-2`,
anything else by `a-1` alone; the clone of `a-1` reports `a1PreBuilt`, the
clone of `a-2` reports `a2PreBuilt`; the solver keeps `keep`; the manifest
lists `a-1.rpm`. -/
def envToolchain (a1PreBuilt a2PreBuilt : Bool) (keep : String) : Collaborators :=
  fixedCollaborators [unresolvedNode 1 "x" false, unresolvedNode 2 "y" false] ["a-1.rpm"] none
    (fun pkg => if pkg.Name = "x" then .ok ["a-1", "a-2"] else .ok ["a-1"])
    (fun name => if name = "a-1" then .ok a1PreBuilt else .ok a2PreBuilt)
    (fun _ => .ok [keep])

/-- Scenario C with a repository that is down: two nodes requiring `libfoo`,
one provider `libfoo-1.0-1`, every clone fails. -/
def envCloneFails : Collaborators :=
  fixedCollaborators [unresolvedNode 1 "libfoo" false, unresolvedNode 2 "libfoo" false] [] none
    (fun _ => .ok ["libfoo-1.0-1"]) (fun _ => .error "repo unreachable") (fun _ => .ok [])

/-- Scenario C: two nodes requiring `libfoo`, one provider `libfoo-1.0-1`, every
clone succeeds. -/
def envShared : Collaborators :=
  fixedCollaborators [unresolvedNode 1 "libfoo" false, unresolvedNode 2 "libfoo" false] [] none
    (fun _ => .ok ["libfoo-1.0-1"]) (fun _ => .ok false) (fun _ => .ok [])

/-- Collaborators for a graph of one implicit node that nothing provides: the
provider query fails. -/
def envImplicitUnknown : Collaborators :=
  fixedCollaborators [unresolvedNode 1 "pkgconfig(foo)" true] [] none
    (fun _ => .error "no provider") (fun _ => .ok false) (fun _ => .ok [])

/-- A node resolved by an earlier run. -/
def cachedNode : PkgNode :=
  ⟨7, ⟨"bash", "", ""⟩, false, NodeState.Cached, NodeType.Normal, "/out/bash-5.1-1.x86_64.rpm"⟩

/-- Collaborators for a graph in which every node is already resolved. -/
def envAllResolved : Collaborators :=
  fixedCollaborators [cachedNode] [] none
    (fun _ => .ok ["a-1"]) (fun _ => .ok false) (fun _ => .ok [])

/-- Scenario D: three unresolved nodes; nothing provides `missing`, every other
requirement has one provider named after it. -/
def scenarioD : List PkgNode :=
  [unresolvedNode 1 "a" false, unresolvedNode 2 "missing" false, unresolvedNode 3 "b" false]

/-- Collaborators of scenario D. -/
def envScenarioD : Collaborators :=
  fixedCollaborators scenarioD [] none
    (fun pkg => if pkg.Name = "missing" then .error "provider not found"
      else .ok [pkg.Name ++ "-1.0-1"])
    (fun _ => .ok false) (fun _ => .ok [])

/-- A warm-start configuration: as `sampleConfig`, with the snapshot
`cache.json` supplied. -/
def warmConfig : Config := { sampleConfig with InputSummaryFile := "cache.json" }

/-- Collaborators that succeed throughout for a graph of one unresolved node. -/
def envOneUnresolved : Collaborators :=
  fixedCollaborators [unresolvedNode 1 "a" false] [] none
    (fun _ => .ok ["a-1"]) (fun _ => .ok false) (fun _ => .ok [])

/-! ## The path selector -/

theorem assignRPMPath_single (env : Collaborators) (cfg : Config) (tr : List Event)
    (node : PkgNode) (outDir c : String) :
    assignRPMPath env cfg tr node outDir [c] =
      some ⟨tr, { node with RpmPath := rpmPackageToRPMPath c outDir }, none⟩ := by
  simp [assignRPMPath]

theorem addedTo_append (tr added : List Event) : addedTo tr (tr ++ added) = added := by
  simp [addedTo]

/-- What `assignRPMPath` does with two or more candidates, by answer of the solver. -/
theorem assignRPMPath_several (env : Collaborators) (cfg : Config) (tr : List Event)
    (node : PkgNode) (outDir c d : String) (rest : List String) :
    ∃ a answer, assignRPMPath env cfg tr node outDir (c :: d :: rest) = some a ∧
      (∃ logs, a.trace = tr ++ [Event.Log Level.Debug "Found %d candidates. Resolving."] ++
        [Event.ResolveCompetingPackages cfg.TmpDir
          ((c :: d :: rest).map (fun p => rpmPackageToRPMPath p outDir)) answer] ++ logs ∧
        (∀ e ∈ logs, ∃ lvl f, e = Event.Log lvl f)) ∧
      (∀ e, answer = .error e →
        a.err = some (Err.External e) ∧
        a.node = { node with RpmPath := rpmPackageToRPMPath c outDir }) ∧
      (answer = .ok [] →
        a.err = none ∧ a.node = { node with RpmPath := rpmPackageToRPMPath c outDir }) ∧
      (∀ r0 rs, answer = .ok (r0 :: rs) →
        a.err = none ∧ a.node = { node with RpmPath := rpmPackageToRPMPath r0 outDir }) := by
  simp only [assignRPMPath, List.map_cons, List.length_cons]
  simp only [show (List.map (fun p => rpmPackageToRPMPath p outDir) rest).length + 1 + 1 > 1
    from by omega, if_true]
  generalize hres : env.ResolveCompetingPackages _ _ _ = res
  rcases res with e | rs
  · exact ⟨_, .error e, rfl, ⟨_, rfl, by simp⟩, by simp, by simp, by simp⟩
  · rcases rs with _ | ⟨r0, rs⟩
    · exact ⟨_, .ok [], rfl, ⟨_, rfl, by simp⟩, by simp, by simp, by simp⟩
    · by_cases h : (r0 :: rs).length > 1
      · refine ⟨_, .ok (r0 :: rs), rfl, ⟨[Event.Log Level.Warn
          "Found %d candidates to provide '%s'. Picking the first one."], ?_, ?_⟩,
          by simp, by simp, by simp⟩
        · simp only [h, if_true]
        · simp
      · refine ⟨_, .ok (r0 :: rs), rfl, ⟨[], ?_, ?_⟩, by simp, by simp, by simp⟩
        · simp only [h, if_false, List.append_nil]
        · simp

/-- C8: on a non-empty candidate list `assignRPMPath` returns.  With exactly one
candidate `c` it succeeds without calling the solver and the node path is
`filepath.Join(outDir, c + ".rpm")`.  With several candidates it calls the
solver once on the candidate paths, and when the solver answers with a
non-empty list it succeeds and the node path is
`filepath.Join(outDir, r0 + ".rpm")` for the first element `r0` of the answer. -/
theorem assignRPMPath_selects (env : Collaborators) (cfg : Config) (tr : List Event)
    (node : PkgNode) (outDir c : String) (rest : List String) :
    ∃ a, assignRPMPath env cfg tr node outDir (c :: rest) = some a ∧
      (rest = [] → a.err = none ∧ a.trace = tr ∧
        a.node.RpmPath = filepathJoin [outDir, c ++ ".rpm"]) ∧
      (rest ≠ [] →
        (∃ answer, Event.ResolveCompetingPackages cfg.TmpDir
          ((c :: rest).map (fun p => filepathJoin [outDir, p ++ ".rpm"])) answer
            ∈ addedTo tr a.trace) ∧
        ∀ root paths r0 rs,
          Event.ResolveCompetingPackages root paths (.ok (r0 :: rs)) ∈ addedTo tr a.trace →
          a.err = none ∧ a.node.RpmPath = filepathJoin [outDir, r0 ++ ".rpm"]) := by
  rcases rest with _ | ⟨d, rest⟩
  · exact ⟨_, assignRPMPath_single env cfg tr node outDir c,
      fun _ => ⟨rfl, rfl, rfl⟩, fun h => absurd rfl h⟩
  · obtain ⟨a, answer, ha, ⟨logs, htr, hlogs⟩, _, _, hok⟩ :=
      assignRPMPath_several env cfg tr node outDir c d rest
    refine ⟨a, ha, fun h => by simp at h, fun _ => ⟨⟨answer, ?_⟩, ?_⟩⟩
    · rw [htr, List.append_assoc, List.append_assoc, addedTo_append]
      simp [rpmPackageToRPMPath]
    · intro root paths r0 rs hmem
      rw [htr, List.append_assoc, List.append_assoc, addedTo_append] at hmem
      simp only [List.cons_append, List.nil_append, List.mem_cons] at hmem
      rcases hmem with h | h | h
      · cases h
      · injection h with _ _ h3
        obtain ⟨h1, h2⟩ := hok r0 rs h3.symm
        exact ⟨h1, by rw [h2]; rfl⟩
      · obtain ⟨lvl, f, hf⟩ := hlogs _ h
        cases hf

/-- Scenario A: the sole candidate `bash-5.1-1.x86_64` gives
`/out/bash-5.1-1.x86_64.rpm` with no solver call; two candidates of which the
solver keeps `a-2` first give `/out/a-2.rpm`. -/
theorem assignRPMPath_selects_witness :
    (∃ a, assignRPMPath envTwoInstallable sampleConfig [] (unresolvedNode 1 "bash" false)
        "/out" ["bash-5.1-1.x86_64"] = some a ∧
      a.err = none ∧ a.trace = [] ∧ a.node.RpmPath = "/out/bash-5.1-1.x86_64.rpm") ∧
    (∃ a, assignRPMPath envTwoInstallable sampleConfig [] (unresolvedNode 1 "a" false)
        "/out" ["a-1", "a-2"] = some a ∧
      a.err = none ∧ a.node.RpmPath = "/out/a-2.rpm") := by
  constructor
  · obtain ⟨a, h, h1, _⟩ := assignRPMPath_selects envTwoInstallable sampleConfig []
      (unresolvedNode 1 "bash" false) "/out" "bash-5.1-1.x86_64" []
    obtain ⟨h2, h3, h4⟩ := h1 rfl
    exact ⟨a, h, h2, h3, by rw [h4]; decide⟩
  · obtain ⟨a, h, _, h1⟩ := assignRPMPath_selects envTwoInstallable sampleConfig []
      (unresolvedNode 1 "a" false) "/out" "a-1" ["a-2"]
    have hmem : Event.ResolveCompetingPackages "/tmp"
        [rpmPackageToRPMPath "a-1" "/out", rpmPackageToRPMPath "a-2" "/out"]
        (.ok ["a-2", "a-1"]) ∈ addedTo [] a.trace := by
      have h0 : assignRPMPath envTwoInstallable sampleConfig [] (unresolvedNode 1 "a" false)
          "/out" ["a-1", "a-2"] = some ⟨[Event.Log Level.Debug "Found %d candidates. Resolving.",
            Event.ResolveCompetingPackages "/tmp"
              [rpmPackageToRPMPath "a-1" "/out", rpmPackageToRPMPath "a-2" "/out"]
              (.ok ["a-2", "a-1"]),
            Event.Log Level.Warn "Found %d candidates to provide '%s'. Picking the first one."],
            { unresolvedNode 1 "a" false with RpmPath := rpmPackageToRPMPath "a-2" "/out" },
            none⟩ := rfl
      rw [h0] at h
      cases h
      simp [addedTo]
    obtain ⟨h2, h3⟩ := (h1 (by simp)).2 _ _ _ _ hmem
    exact ⟨a, h, h2, by rw [h3]; decide⟩

/-- C2: two candidates, the solver returns no installable candidate and no
error.  `assignRPMPath` logs the failure at error severity and returns a nil
error, `resolveSingleNode` returns a nil error as well, and the node is
advanced to `Cached` with the path of the first candidate. -/
theorem no_installable_candidate_unreported :
    (assignRPMPath envNoneInstallable sampleConfig [] (unresolvedNode 1 "a" false) "/out"
      ["a-1", "a-2"]).map (fun a => (a.err, a.trace.any Event.isLoudLog)) =
      some (none, true) ∧
    (resolveSingleNode envNoneInstallable sampleConfig [] (unresolvedNode 1 "a" false) []
      Caches.empty "/out").map (fun r => (r.err, r.node.State, r.node.RpmPath)) =
      some (none, NodeState.Cached, "/out/a-1.rpm") := by
  decide

/-- C6: `cloner.Initialize` fails, upstream repositories are enabled and
`AddNetworkFiles` succeeds.  `initializeCloner` returns a nil error, and
`ResolvePackages` goes on: it queries the provider of the unresolved node,
materializes the repository, writes the graph and returns nil.  With
upstream repositories disabled the same failure is returned. -/
theorem initialize_error_overwritten :
    (initializeCloner envInitFails sampleConfig []).exit = Exit.Returned none ∧
    (ResolvePackages envInitFails sampleConfig).exit = Exit.Returned none ∧
    whatProvidesCalls (ResolvePackages envInitFails sampleConfig).trace = [⟨"a", "", ""⟩] ∧
    (ResolvePackages envInitFails sampleConfig).trace.any Event.isConvert = true ∧
    (initializeCloner envInitFails { sampleConfig with DisableUpstreamRepos := true } []).exit =
      Exit.Returned (some (Err.External "no worker chroot")) := by
  decide

/-- C1: the node requiring `x` has the candidates `a-1` and `a-2`, both cloned
by this call; the clone of `a-1` reports no prebuilt origin, the clone of `a-2`
reports one; the solver keeps `a-1`, whose file name is in the manifest.  The
node ends `UpToDate`, `PreBuilt` on `/out/a-1.rpm`.  In the second run the
clone of `a-1` reports a prebuilt origin while resolving `x` (which keeps `a-2`);
the node requiring `y`, resolved next by `a-1` alone, ends `Cached`. -/
theorem promotion_uses_last_clone :
    (resolveSingleNode (envToolchain false true "a-1") sampleConfig []
        (unresolvedNode 1 "x" false) ["a-1.rpm"] Caches.empty "/out").map
      (fun r => (r.err, r.node.State, r.node.Type_, r.node.RpmPath,
        decide (Event.Clone true "a-1" (.ok false) ∈ r.trace))) =
      some (none, NodeState.UpToDate, NodeType.PreBuilt, "/out/a-1.rpm", true) ∧
    (scanNodes (envToolchain true false "a-2") sampleConfig ["a-1.rpm"] "/out"
        [unresolvedNode 1 "x" false, unresolvedNode 2 "y" false] [] Caches.empty true).map
      (fun s => (s.nodes.map (fun n => (n.State, n.Type_, n.RpmPath)), s.cachingSucceeded,
        decide (Event.Clone true "a-1" (.ok true) ∈ s.trace))) =
      some ([(NodeState.Cached, NodeType.Normal, "/out/a-2.rpm"),
        (NodeState.Cached, NodeType.Normal, "/out/a-1.rpm")], true, true) := by
  decide

/-- C3 fails as stated: two unresolved nodes resolve to the provider
`libfoo-1.0-1` and every clone of it fails; the cold path invokes the clone
twice for it. -/
theorem failed_clone_is_repeated :
    (resolveGraphNodes envCloneFails sampleConfig []
        [unresolvedNode 1 "libfoo" false, unresolvedNode 2 "libfoo" false] "" "" [] "/out"
        false false).map (fun g => cloneCount "libfoo-1.0-1" g.trace) = some 2 := by
  decide

/-- C5 fails as stated: the only failure of the run is an implicit node whose
provider query fails, and with stop-on-failure set `resolveGraphNodes` returns
the aggregate error and `ResolvePackages` panics. -/
theorem implicit_failure_stops_run :
    (resolveGraphNodes envImplicitUnknown sampleConfig [] [unresolvedNode 1 "pkgconfig(foo)" true]
        "" "" [] "/out" false true).map (fun g => g.err) = some (some Err.CacheFailed) ∧
    (ResolvePackages envImplicitUnknown { sampleConfig with StopOnFailure := true }).exit =
      Exit.Panicked := by
  decide

/-- C7 fails as stated: the node starts `Unresolved` with an empty path, it has
two candidates and the solver fails; it is left `Unresolved` with the path of
the first candidate, which breaks the path invariant. -/
theorem solver_error_leaves_path :
    PathInvariant (unresolvedNode 1 "a" false) ∧
    (resolveSingleNode envSolverFails sampleConfig [] (unresolvedNode 1 "a" false) []
        Caches.empty "/out").map
      (fun r => (r.err, r.node.State, r.node.RpmPath, decide (PathInvariant r.node))) =
      some (some (Err.External "rpm failed"), NodeState.Unresolved, "/out/a-1.rpm", false) := by
  decide

/-- C10 fails as stated: with a snapshot supplied and no unresolved node in the
graph, `ResolvePackages` neither restores the cache nor materializes the
repository; it only writes the graph. -/
theorem snapshot_ignored_without_unresolved :
    (ResolvePackages envAllResolved warmConfig).exit =
      Exit.Returned none ∧
    (ResolvePackages envAllResolved warmConfig).trace.any Event.isRestore = false ∧
    (ResolvePackages envAllResolved warmConfig).trace.any Event.isConvert = false ∧
    (ResolvePackages envAllResolved warmConfig).trace.any Event.isWrite = true := by
  decide

/-! ## The clone loop -/

/-- What the clone loop adds to the history: clones and log lines only; it ends
with an error exactly when a clone failed. -/
theorem cloneLoop_added (env : Collaborators) (ps : List String) :
    ∀ (tr : List Event) (c : Caches) (pb : Bool),
    ∃ added, (cloneLoop env ps tr c pb).trace = tr ++ added ∧
      (∀ e ∈ added, (∃ n r, e = Event.Clone true n r) ∨ ∃ lvl f, e = Event.Log lvl f) ∧
      (cloneLoop env ps tr c pb).err.isSome = added.any Event.isFailure := by
  induction ps with
  | nil => intro tr c pb; exact ⟨[], by simp [cloneLoop], by simp, by simp [cloneLoop]⟩
  | cons p ps ih =>
    intro tr c pb
    unfold cloneLoop
    by_cases hf : c.fetchedPackages p = true
    · simp only [hf, Bool.not_true, Bool.false_eq_true, if_false]
      exact ih tr c pb
    · simp only [hf, Bool.not_false, if_true]
      generalize env.Clone tr true p = res
      rcases res with e | b
      · exact ⟨_, List.append_assoc _ _ _, by simp, by simp [Event.isFailure]⟩
      · obtain ⟨added, h1, h2, h3⟩ := ih
          (tr ++ [Event.Clone true p (.ok b)] ++
            [Event.Log Level.Debug "Fetched '%s' as potential candidate (is pre-built: %v)."])
          ⟨mapSet c.fetchedPackages p true, mapSet c.prebuiltPackages p b⟩ b
        refine ⟨?w, ?h1, ?h2, ?h3⟩
        case h1 =>
          dsimp only
          rw [h1, List.append_assoc, List.append_assoc]
          exact rfl
        case h2 =>
          intro e he
          simp only [List.mem_cons, List.mem_append, List.mem_singleton, List.not_mem_nil,
            or_false] at he
          rcases he with he | he | he
          · exact Or.inl ⟨_, _, he⟩
          · exact Or.inr ⟨_, _, he⟩
          · exact h2 e he
        case h3 =>
          dsimp only
          rw [h3]
          simp [Event.isFailure]

/-! ## Paths are never empty -/

theorem dot_or_chars_ne_empty (res : List Char) :
    (if res = [] then "." else String.mk res) ≠ "" := by
  by_cases h : res = []
  · simp only [h, if_true]; decide
  · simp only [h, if_false]
    intro h'
    exact h (by simpa using congrArg String.data h')

theorem filepathClean_ne_empty (path : String) : filepathClean path ≠ "" := by
  unfold filepathClean
  by_cases h : path.data = []
  · simp only [h, if_true]; decide
  · simp only [h, if_false]
    exact dot_or_chars_ne_empty _

theorem rpmPackageToRPMPath_ne_empty (rpmPackage outDir : String) :
    rpmPackageToRPMPath rpmPackage outDir ≠ "" := by
  have hx : (rpmPackage ++ ".rpm").data ≠ [] := by
    simp [String.data_append]
  simp only [rpmPackageToRPMPath, filepathJoin, hx, if_false]
  split
  · exact filepathClean_ne_empty _
  · exact filepathClean_ne_empty _

/-! ## What one call of the selector adds -/

/-- On a non-empty candidate list `assignRPMPath` returns; it adds solver calls
and log lines only, returns an error exactly when the solver failed, changes
no field of the node but the path, and leaves a non-empty path. -/
theorem assignRPMPath_added (env : Collaborators) (cfg : Config) (tr : List Event)
    (node : PkgNode) (outDir c : String) (rest : List String) :
    ∃ a added, assignRPMPath env cfg tr node outDir (c :: rest) = some a ∧
      a.trace = tr ++ added ∧
      (∀ e ∈ added, e.isSolverCall = true ∨ ∃ lvl f, e = Event.Log lvl f) ∧
      a.err.isSome = added.any Event.isFailure ∧
      a.node = { node with RpmPath := a.node.RpmPath } ∧ a.node.RpmPath ≠ "" := by
  rcases rest with _ | ⟨d, rest⟩
  · exact ⟨_, [], assignRPMPath_single env cfg tr node outDir c, by simp, by simp, by simp,
      rfl, rpmPackageToRPMPath_ne_empty _ _⟩
  · obtain ⟨a, answer, ha, ⟨logs, htr, hlogs⟩, herr, hnone, hok⟩ :=
      assignRPMPath_several env cfg tr node outDir c d rest
    have hlf : logs.any Event.isFailure = false := by
      rw [List.any_eq_false]
      intro e he
      obtain ⟨lvl, f, hf⟩ := hlogs e he
      simp [hf, Event.isFailure]
    refine ⟨a, _, ha, by rw [htr, List.append_assoc, List.append_assoc], ?_, ?_, ?_⟩
    · intro e he
      simp only [List.mem_cons, List.mem_append, List.mem_singleton, List.not_mem_nil,
        or_false] at he
      rcases he with he | he | he
      · exact Or.inr ⟨_, _, he⟩
      · exact Or.inl (by rw [he]; rfl)
      · exact Or.inr (hlogs e he)
    · rcases answer with e | rs
      · simp [(herr e rfl).1, Event.isFailure, hlf]
      · rcases rs with _ | ⟨r0, rs⟩
        · simp [(hnone rfl).1, Event.isFailure, hlf]
        · simp [(hok r0 rs rfl).1, Event.isFailure, hlf]
    · rcases answer with e | rs
      · rw [(herr e rfl).2]; exact ⟨rfl, rpmPackageToRPMPath_ne_empty _ _⟩
      · rcases rs with _ | ⟨r0, rs⟩
        · rw [(hnone rfl).2]; exact ⟨rfl, rpmPackageToRPMPath_ne_empty _ _⟩
        · rw [(hok r0 rs rfl).2]; exact ⟨rfl, rpmPackageToRPMPath_ne_empty _ _⟩

/-! ## Kinds of events -/

/-- Consequences of a stretch of history holding clones and log lines only. -/
theorem clones_observations (l : List Event)
    (h : ∀ e ∈ l, (∃ n r, e = Event.Clone true n r) ∨ ∃ lvl f, e = Event.Log lvl f) :
    List.filterMap Event.queried l = [] ∧ l.any Event.isEmptyQuery = false ∧
    l.any Event.isSolverFailure = false ∧
    l.all Event.isScanStep = true ∧
    (∀ e ∈ l, e.providers = []) := by
  refine ⟨?_, ?_, ?_, ?_, ?_⟩
  · rw [List.filterMap_eq_nil_iff]
    intro e he
    rcases h e he with ⟨n, r, rfl⟩ | ⟨lvl, f, rfl⟩ <;> rfl
  · rw [List.any_eq_false]
    intro e he
    rcases h e he with ⟨n, r, rfl⟩ | ⟨lvl, f, rfl⟩ <;> simp [Event.isEmptyQuery]
  · rw [List.any_eq_false]
    intro e he
    rcases h e he with ⟨n, r, rfl⟩ | ⟨lvl, f, rfl⟩ <;> simp [Event.isSolverFailure]
  · rw [List.all_eq_true]
    intro e he
    rcases h e he with ⟨n, r, rfl⟩ | ⟨lvl, f, rfl⟩ <;> rfl
  · intro e he
    rcases h e he with ⟨n, r, rfl⟩ | ⟨lvl, f, rfl⟩ <;> rfl

theorem solverCall_cases (e : Event) (h : e.isSolverCall = true) :
    ∃ root paths res, e = Event.ResolveCompetingPackages root paths res := by
  cases e <;> first | exact ⟨_, _, _, rfl⟩ | exact absurd h (by simp [Event.isSolverCall])

/-- Consequences of a stretch of history holding solver calls and log lines only. -/
theorem solver_observations (l : List Event)
    (h : ∀ e ∈ l, e.isSolverCall = true ∨ ∃ lvl f, e = Event.Log lvl f) :
    List.filterMap Event.queried l = [] ∧ l.any Event.isEmptyQuery = false ∧
    l.any Event.isSolverFailure = l.any Event.isFailure ∧
    l.all Event.isScanStep = true ∧
    (∀ e ∈ l, e.providers = []) ∧ (∀ p, cloneCount p l = 0) := by
  refine ⟨?_, ?_, ?_, ?_, ?_, ?_⟩
  · rw [List.filterMap_eq_nil_iff]
    intro e he
    rcases h e he with hs | ⟨lvl, f, rfl⟩
    · obtain ⟨root, paths, res, rfl⟩ := solverCall_cases e hs
      rfl
    · rfl
  · rw [List.any_eq_false]
    intro e he
    rcases h e he with hs | ⟨lvl, f, rfl⟩
    · obtain ⟨root, paths, res, rfl⟩ := solverCall_cases e hs
      simp [Event.isEmptyQuery]
    · simp [Event.isEmptyQuery]
  · induction l with
    | nil => rfl
    | cons e l ih =>
      have ih' := ih (fun e he => h e (List.mem_cons_of_mem _ he))
      simp only [List.any_cons, ih']
      congr 1
      rcases h e (List.mem_cons_self _ _) with hs | ⟨lvl, f, rfl⟩
      · obtain ⟨root, paths, res, rfl⟩ := solverCall_cases e hs
        cases res <;> rfl
      · rfl
  · rw [List.all_eq_true]
    intro e he
    rcases h e he with hs | ⟨lvl, f, rfl⟩
    · obtain ⟨root, paths, res, rfl⟩ := solverCall_cases e hs
      rfl
    · rfl
  · intro e he
    rcases h e he with hs | ⟨lvl, f, rfl⟩
    · obtain ⟨root, paths, res, rfl⟩ := solverCall_cases e hs
      rfl
    · rfl
  · intro p
    rw [cloneCount, List.countP_eq_zero]
    intro e he
    rcases h e he with hs | ⟨lvl, f, rfl⟩
    · obtain ⟨root, paths, res, rfl⟩ := solverCall_cases e hs
      simp [Event.isCloneOf]
    · simp [Event.isCloneOf]

theorem cloneLoop_added_of_eq (env : Collaborators) (ps : List String) (tr : List Event)
    (c : Caches) (pb : Bool) (cl : CloneResult) (h : cloneLoop env ps tr c pb = cl) :
    ∃ added, cl.trace = tr ++ added ∧
      (∀ e ∈ added, (∃ n r, e = Event.Clone true n r) ∨ ∃ lvl f, e = Event.Log lvl f) ∧
      cl.err.isSome = added.any Event.isFailure := by
  subst h
  exact cloneLoop_added env ps tr c pb

theorem assignRPMPath_added_of_eq (env : Collaborators) (cfg : Config) (tr : List Event)
    (node : PkgNode) (outDir c : String) (rest : List String) (oa : Option AssignResult)
    (h : assignRPMPath env cfg tr node outDir (c :: rest) = oa) :
    ∃ a added, oa = some a ∧
      a.trace = tr ++ added ∧
      (∀ e ∈ added, e.isSolverCall = true ∨ ∃ lvl f, e = Event.Log lvl f) ∧
      a.err.isSome = added.any Event.isFailure ∧
      a.node = { node with RpmPath := a.node.RpmPath } ∧ a.node.RpmPath ≠ "" := by
  subst h
  exact assignRPMPath_added env cfg tr node outDir c rest

/-! ## What one call of the node resolver does -/

/-- `resolveSingleNode` returns.  It adds one provider query, then clones,
solver calls and log lines; it returns an error exactly when a collaborator
gave a failing answer; it changes the state, type and path of the node only,
and none of them on an error that is not a solver error; a node resolved
without error is no longer unresolved and has a path; an implicit node whose
query yields no candidate fails without a log line above informational
severity. -/
theorem resolveSingleNode_added (env : Collaborators) (cfg : Config) (tr : List Event)
    (n : PkgNode) (tc : List String) (c : Caches) (outDir : String) :
    ∃ r added, resolveSingleNode env cfg tr n tc c outDir = some r ∧
      r.trace = tr ++ added ∧
      added.all Event.isScanStep = true ∧
      whatProvidesCalls added = [n.VersionedPkg] ∧
      r.err.isSome = added.any Event.isFailure ∧
      r.node =
        { n with State := r.node.State, Type_ := r.node.Type_, RpmPath := r.node.RpmPath } ∧
      (r.err ≠ none → r.node.State = n.State ∧ r.node.Type_ = n.Type_) ∧
      (r.err ≠ none → added.any Event.isSolverFailure = false → r.node = n) ∧
      (added.any Event.isSolverFailure = true → r.err ≠ none ∧ r.node.RpmPath ≠ "") ∧
      (r.err = none → r.node.State ≠ NodeState.Unresolved ∧ r.node.RpmPath ≠ "") ∧
      (n.Implicit = true → added.any Event.isEmptyQuery = true →
        r.err ≠ none ∧ r.node = n ∧ added.any Event.isLoudLog = false) := by
  unfold resolveSingleNode
  dsimp only
  generalize env.WhatProvides _ n.VersionedPkg = res
  rcases res with e | ps
  · refine ⟨_, ?w1, rfl, ?h1, ?rest1⟩
    case h1 =>
      dsimp only
      rw [List.append_assoc, List.append_assoc]
      exact rfl
    case rest1 =>
      simp [whatProvidesCalls, Event.queried, Event.isFailure, Event.isResolution,
        Event.isSolverFailure, Event.isEmptyQuery, Event.isLoudLog, Level.aboveInfo,
        Event.isScanStep, Event.isLog]
      intro h
      simp [h]
  · rcases ps with _ | ⟨p, ps⟩
    · simp only [List.length_nil, if_true]
      refine ⟨_, ?w2, rfl, ?h2, ?rest2⟩
      case h2 =>
        dsimp only
        rw [List.append_assoc]
        exact rfl
      case rest2 =>
        simp [whatProvidesCalls, Event.queried, Event.isFailure, Event.isResolution,
          Event.isSolverFailure, Event.isEmptyQuery, Event.isLoudLog, Level.aboveInfo,
          Event.isScanStep, Event.isLog]
    · simp only [List.length_cons, Nat.add_one_ne_zero, if_false]
      generalize hcl : cloneLoop env (p :: ps) _ c false = cl
      obtain ⟨addedC, hC1, hC2, hC3⟩ := cloneLoop_added_of_eq _ _ _ _ _ _ hcl
      obtain ⟨oC1, oC2, oC3, oC4, -⟩ := clones_observations addedC hC2
      rcases hce : cl.err with _ | ce
      · dsimp only
        generalize ha : assignRPMPath env cfg cl.trace n outDir (p :: ps) = oa
        obtain ⟨a, addedA, rfl, hA1, hA2, hA3, hA4, hA5⟩ :=
          assignRPMPath_added_of_eq _ _ _ _ _ _ _ _ ha
        obtain ⟨oA1, oA2, oA3, oA4, -, -⟩ := solver_observations addedA hA2
        rw [hce] at hC3
        obtain ⟨tra, na, ea⟩ := a
        obtain ⟨nid, nv, ni, ns, nt, np⟩ := n
        obtain ⟨aid, av, ai, ast, aty, ap⟩ := na
        simp only [PkgNode.mk.injEq, and_true] at hA4
        obtain ⟨rfl, rfl, rfl, rfl, rfl⟩ := hA4
        dsimp only at hA1 hA3 hA5 ⊢
        subst hA1
        rcases ea with _ | ae
        · dsimp only
          by_cases hcond : ((cl.preBuilt || cl.caches.prebuiltPackages ap) &&
              isToolchainPackage ap tc) = true
          · simp only [hcond, if_true]
            refine ⟨_, ?w4, rfl, ?h4, ?rest4⟩
            case h4 =>
              dsimp only
              rw [hC1, List.append_assoc, List.append_assoc, List.append_assoc,
                List.append_assoc]
              exact rfl
            case rest4 =>
              simp only [whatProvidesCalls, List.all_append, List.any_append,
                List.filterMap_append, oC1, oC2, oC3, oC4, oA1, oA2, oA3, oA4, ← hC3, ← hA3]
              simp [Event.queried, Event.isFailure, Event.isResolution,
                Event.isSolverFailure, Event.isEmptyQuery, Event.isLoudLog, Level.aboveInfo,
                Event.isScanStep, Event.isLog, hA5]
          · simp only [hcond, if_false]
            refine ⟨_, ?w5, rfl, ?h5, ?rest5⟩
            case h5 =>
              dsimp only
              rw [hC1, List.append_assoc, List.append_assoc, List.append_assoc,
                List.append_assoc]
              exact rfl
            case rest5 =>
              simp only [whatProvidesCalls, List.all_append, List.any_append,
                List.filterMap_append, oC1, oC2, oC3, oC4, oA1, oA2, oA3, oA4, ← hC3, ← hA3]
              simp [Event.queried, Event.isFailure, Event.isResolution,
                Event.isSolverFailure, Event.isEmptyQuery, Event.isLoudLog, Level.aboveInfo,
                Event.isScanStep, Event.isLog, hA5]
        · dsimp only
          refine ⟨_, ?w6, rfl, ?h6, ?rest6⟩
          case h6 =>
            dsimp only
            rw [hC1, List.append_assoc, List.append_assoc, List.append_assoc,
              List.append_assoc]
            exact rfl
          case rest6 =>
            simp only [whatProvidesCalls, List.all_append, List.any_append,
              List.filterMap_append, oC1, oC2, oC3, oC4, oA1, oA2, oA3, oA4, ← hC3, ← hA3]
            simp [Event.queried, Event.isFailure, Event.isResolution,
              Event.isSolverFailure, Event.isEmptyQuery, Event.isLoudLog, Level.aboveInfo,
              Event.isScanStep, Event.isLog, hA5]
      · dsimp only
        refine ⟨_, ?w3, rfl, ?h3, ?rest3⟩
        case h3 =>
          dsimp only
          rw [hC1, List.append_assoc, List.append_assoc]
          exact rfl
        case rest3 =>
          rw [hce] at hC3
          simp only [whatProvidesCalls, List.all_append, List.any_append, List.filterMap_append,
            oC1, oC2, oC3, oC4, ← hC3]
          simp [Event.queried, Event.isFailure, Event.isResolution,
            Event.isSolverFailure, Event.isEmptyQuery, Event.isLoudLog, Level.aboveInfo,
            Event.isScanStep, Event.isLog]

/-! ## The scan -/

theorem scanNodes_added (env : Collaborators) (cfg : Config) (tc : List String)
    (outDir : String) (nodes : List PkgNode) :
    ∀ (tr : List Event) (c : Caches) (ok : Bool),
    ∃ s added, scanNodes env cfg tc outDir nodes tr c ok = some s ∧
      s.trace = tr ++ added ∧
      added.all Event.isScanStep = true ∧
      whatProvidesCalls added =
        (nodes.filter (fun n => n.State = NodeState.Unresolved)).map (fun n => n.VersionedPkg) ∧
      s.cachingSucceeded = (ok && !added.any Event.isFailure) ∧
      List.Forall₂ (fun n n' => n.State ≠ NodeState.Unresolved → n' = n) nodes s.nodes := by
  induction nodes with
  | nil =>
    intro tr c ok
    exact ⟨_, [], rfl, by simp, by simp, by simp [whatProvidesCalls], by simp, List.Forall₂.nil⟩
  | cons n rest ih =>
    intro tr c ok
    unfold scanNodes
    by_cases hn : n.State = NodeState.Unresolved
    · simp only [hn, if_true]
      obtain ⟨r, addedN, hr, hN1, hN2, hN3, hN4, -⟩ :=
        resolveSingleNode_added env cfg tr n tc c outDir
      simp only [hr]
      rcases hre : r.err with _ | e
      · rw [hre] at hN4
        obtain ⟨s, added, hs, h1, h2, h3, h4, h5⟩ := ih r.trace r.caches ok
        simp only [hs, Option.map_some']
        refine ⟨_, addedN ++ added, rfl, ?_, ?_, ?_, ?_, ?_⟩
        · simp only [h1, hN1, List.append_assoc]
        · simp only [List.all_append, hN2, h2, Bool.and_self]
        · simp only [whatProvidesCalls, List.filterMap_append] at hN3 h3 ⊢
          simp [hN3, h3, hn]
        · simp only [h4, List.any_append, ← hN4]
          simp
        · exact List.Forall₂.cons (fun h => absurd hn h) h5
      · rw [hre] at hN4
        obtain ⟨s, added, hs, h1, h2, h3, h4, h5⟩ := ih
          (r.trace ++ [Event.Log Level.Debug
            "Failed to resolve all nodes in the graph while resolving '%s'"]) r.caches false
        simp only [hs, Option.map_some']
        refine ⟨_, addedN ++ ([Event.Log Level.Debug
            "Failed to resolve all nodes in the graph while resolving '%s'"] ++ added),
          rfl, ?_, ?_, ?_, ?_, ?_⟩
        · simp only [h1, hN1, List.append_assoc]
        · simp only [List.all_append, hN2, h2]
          rfl
        · simp only [whatProvidesCalls, List.filterMap_append] at hN3 h3 ⊢
          simp [hN3, h3, hn, Event.queried]
        · simp only [h4, List.any_append, ← hN4]
          simp
        · exact List.Forall₂.cons (fun h => absurd hn h) h5
    · simp only [hn, if_false]
      obtain ⟨s, added, hs, h1, h2, h3, h4, h5⟩ := ih tr c ok
      simp only [hs, Option.map_some']
      refine ⟨_, added, rfl, h1, h2, ?_, h4, List.Forall₂.cons (fun _ => rfl) h5⟩
      simp [h3, hn]

/-- Consequences of a stretch of history added by the scan. -/
theorem scan_observations (l : List Event) (h : l.all Event.isScanStep = true) :
    l.any Event.isConvert = false ∧ l.any Event.isFinishFailure = false ∧
    l.any Event.isRestore = false ∧ l.any Event.isWrite = false := by
  rw [List.all_eq_true] at h
  have key : ∀ e ∈ l, e.isConvert = false ∧ e.isFinishFailure = false ∧
      e.isRestore = false ∧ e.isWrite = false := by
    intro e he
    have := h e he
    cases e <;> first
      | exact ⟨rfl, rfl, rfl, rfl⟩
      | exact absurd this (by simp [Event.isScanStep, Event.isResolution, Event.isLog])
  refine ⟨?_, ?_, ?_, ?_⟩
  · rw [List.any_eq_false]
    exact fun e he => by simp [(key e he).1]
  · rw [List.any_eq_false]
    exact fun e he => by simp [(key e he).2.1]
  · rw [List.any_eq_false]
    exact fun e he => by simp [(key e he).2.2.1]
  · rw [List.any_eq_false]
    exact fun e he => by simp [(key e he).2.2.2]

/-- Consequences of a stretch of history added by the end of `resolveGraphNodes`. -/
theorem finish_observations (l : List Event) (h : l.all Event.isFinishStep = true) :
    List.filterMap Event.queried l = [] ∧ l.any Event.isFailure = false ∧
    l.any Event.isResolution = false ∧ l.any Event.isRestore = false ∧
    l.any Event.isWrite = false ∧ (∀ p, cloneCount p l = 0) ∧
    (∀ e ∈ l, e.providers = []) := by
  rw [List.all_eq_true] at h
  have key : ∀ e ∈ l, e.queried = none ∧ e.isFailure = false ∧ e.isResolution = false ∧
      e.isRestore = false ∧ e.isWrite = false ∧ (∀ p, e.isCloneOf p = false) ∧
      e.providers = [] := by
    intro e he
    have := h e he
    cases e <;> first
      | exact ⟨rfl, rfl, rfl, rfl, rfl, fun _ => rfl, rfl⟩
      | exact absurd this (by simp [Event.isFinishStep, Event.isConvert, Event.isSave,
          Event.isLog])
  refine ⟨?_, ?_, ?_, ?_, ?_, ?_, ?_⟩
  · rw [List.filterMap_eq_nil_iff]
    exact fun e he => (key e he).1
  · rw [List.any_eq_false]
    exact fun e he => by simp [(key e he).2.1]
  · rw [List.any_eq_false]
    exact fun e he => by simp [(key e he).2.2.1]
  · rw [List.any_eq_false]
    exact fun e he => by simp [(key e he).2.2.2.1]
  · rw [List.any_eq_false]
    exact fun e he => by simp [(key e he).2.2.2.2.1]
  · intro p
    rw [cloneCount, List.countP_eq_zero]
    exact fun e he => by simp [(key e he).2.2.2.2.2.1 p]
  · exact fun e he => (key e he).2.2.2.2.2.2

/-! ## The end of `resolveGraphNodes` -/

/-- The end of `resolveGraphNodes` leaves the nodes alone and adds
materialization, snapshot save and log lines only.  It returns the aggregate
error exactly when stop-on-failure is set and caching did not succeed, and
then adds nothing; otherwise it materializes the repository and returns nil
exactly when neither materialization nor the snapshot save failed. -/
theorem finishRun_added (env : Collaborators) (outF : String) (stop : Bool)
    (nodes : List PkgNode) (tr : List Event) (ok : Bool) (g : GraphResult)
    (hg : finishRun env outF stop nodes tr ok = g) :
    ∃ added, g.trace = tr ++ added ∧ g.nodes = nodes ∧
      added.all Event.isFinishStep = true ∧
      (g.err = some Err.CacheFailed ↔ stop = true ∧ ok = false) ∧
      (g.err = some Err.CacheFailed → added = []) ∧
      (g.err ≠ some Err.CacheFailed →
        added.any Event.isConvert = true ∧
        (g.err = none ↔ added.any Event.isFinishFailure = false)) := by
  unfold finishRun at hg
  by_cases hstop : (stop && !ok) = true
  · simp only [hstop, if_true] at hg
    subst hg
    refine ⟨[], by simp, rfl, rfl, ?_, by simp, by simp⟩
    simpa using hstop
  · simp only [hstop, if_false] at hg
    have hstop' : ¬ (stop = true ∧ ok = false) := by simpa using hstop
    generalize env.ConvertDownloadedPackagesIntoRepo _ = res at hg
    rcases res with _ | e
    · dsimp only at hg
      by_cases hout : trimSpace outF ≠ ""
      · rw [if_pos hout] at hg
        generalize env.SaveClonedRepoContents _ outF = res2 at hg
        rcases res2 with _ | e2
        · subst hg
          refine ⟨?w1, ?h1, rfl, ?rest1⟩
          case h1 =>
            dsimp only
            rw [List.append_assoc, List.append_assoc]
            exact rfl
          case rest1 =>
            simp [hstop', Event.isFinishStep, Event.isConvert, Event.isSave, Event.isLog,
              Event.isFinishFailure]
        · subst hg
          refine ⟨?w2, ?h2, rfl, ?rest2⟩
          case h2 =>
            dsimp only
            rw [List.append_assoc, List.append_assoc, List.append_assoc]
            exact rfl
          case rest2 =>
            simp [hstop', Event.isFinishStep, Event.isConvert, Event.isSave, Event.isLog,
              Event.isFinishFailure]
      · rw [if_neg hout] at hg
        subst hg
        refine ⟨?w3, ?h3, rfl, ?rest3⟩
        case h3 =>
          dsimp only
          rw [List.append_assoc]
          exact rfl
        case rest3 =>
          simp [hstop', Event.isFinishStep, Event.isConvert, Event.isSave, Event.isLog,
            Event.isFinishFailure]
    · subst hg
      refine ⟨?w4, ?h4, rfl, ?rest4⟩
      case h4 =>
        dsimp only
        rw [List.append_assoc, List.append_assoc]
        exact rfl
      case rest4 =>
        simp [hstop', Event.isFinishStep, Event.isConvert, Event.isSave, Event.isLog,
          Event.isFinishFailure]

/-! ## The driver -/

theorem forall₂_getElem? {R : PkgNode → PkgNode → Prop} :
    ∀ (l₁ l₂ : List PkgNode), List.Forall₂ R l₁ l₂ →
    ∀ (i : Nat) (a : PkgNode), l₁[i]? = some a → ∃ b, l₂[i]? = some b ∧ R a b := by
  intro l₁ l₂ h
  induction h with
  | nil => intro i a ha; simp at ha
  | cons hab _ ih =>
    intro i a ha
    cases i with
    | zero =>
      simp only [List.getElem?_cons_zero, Option.some.injEq] at ha
      subst ha
      exact ⟨_, by simp, hab⟩
    | succ i =>
      simp only [List.getElem?_cons_succ] at ha ⊢
      exact ih i a ha

/-- The cold path of `resolveGraphNodes` returns; what it adds to the history is
what the scan added followed by what the end of the run added, with the
properties of each. -/
theorem resolveGraphNodes_cold (env : Collaborators) (cfg : Config) (tr : List Event)
    (nodes : List PkgNode) (inF outF : String) (tc : List String) (outDir : String)
    (d stop : Bool) (hcold : trimSpace inF = "") :
    ∃ g addedS addedF, resolveGraphNodes env cfg tr nodes inF outF tc outDir d stop = some g ∧
      addedTo tr g.trace = addedS ++ addedF ∧
      addedS.all Event.isScanStep = true ∧ addedF.all Event.isFinishStep = true ∧
      whatProvidesCalls addedS =
        (nodes.filter (fun n => n.State = NodeState.Unresolved)).map
          (fun n => n.VersionedPkg) ∧
      (g.err = some Err.CacheFailed ↔ stop = true ∧ addedS.any Event.isFailure = true) ∧
      (g.err = some Err.CacheFailed → addedF = []) ∧
      (g.err ≠ some Err.CacheFailed →
        (g.err = none ↔ addedF.any Event.isFinishFailure = false)) := by
  unfold resolveGraphNodes
  simp only [hcold, if_true]
  obtain ⟨s, addedS, hs, hS1, hS2, hS3, hS4, -⟩ :=
    scanNodes_added env cfg tc outDir nodes tr Caches.empty true
  simp only [hs]
  generalize hgdef : finishRun env outF stop s.nodes s.trace s.cachingSucceeded = g
  obtain ⟨addedF, hF1, -, hF2, hF3, hF4, hF5⟩ := finishRun_added _ _ _ _ _ _ g hgdef
  refine ⟨g, addedS, addedF, rfl, ?_, hS2, hF2, hS3, ?_, hF4, fun h => (hF5 h).2⟩
  · rw [hF1, hS1, List.append_assoc, addedTo_append]
  · rw [hF3, hS4]
    simp

/-- C4: `resolveSingleNode` returns, with an error exactly when a collaborator
gave it a failing answer.  On the cold path `resolveGraphNodes` returns, and
the provider queries it made are those of the unresolved nodes, one each and
in order, whatever failed on the way.  It returns the aggregate error exactly
when stop-on-failure is set and a collaborator gave a failing answer, that is
when a node failed, and then the repository is not materialized.  Without
stop-on-failure it returns nil whenever materialization and the snapshot save
did not fail. -/
theorem resolveGraphNodes_continues (env : Collaborators) (cfg : Config) (tr : List Event)
    (nodes : List PkgNode) (inF outF : String) (tc : List String) (outDir : String)
    (d stop : Bool) (hcold : trimSpace inF = "") :
    (∀ (tr' : List Event) (n : PkgNode) (c : Caches),
      ∃ r, resolveSingleNode env cfg tr' n tc c outDir = some r ∧
        (r.err ≠ none ↔ (addedTo tr' r.trace).any Event.isFailure = true)) ∧
    ∃ g, resolveGraphNodes env cfg tr nodes inF outF tc outDir d stop = some g ∧
      whatProvidesCalls (addedTo tr g.trace) =
        (nodes.filter (fun n => n.State = NodeState.Unresolved)).map
          (fun n => n.VersionedPkg) ∧
      (g.err = some Err.CacheFailed ↔
        stop = true ∧ (addedTo tr g.trace).any Event.isFailure = true) ∧
      (g.err = some Err.CacheFailed → (addedTo tr g.trace).any Event.isConvert = false) ∧
      (stop = false → (addedTo tr g.trace).any Event.isFinishFailure = false →
        g.err = none) := by
  constructor
  · intro tr' n c
    obtain ⟨r, added, hr, h1, -, -, h4, -⟩ := resolveSingleNode_added env cfg tr' n tc c outDir
    refine ⟨r, hr, ?_⟩
    rw [h1, addedTo_append, ← h4]
    cases r.err <;> simp
  · obtain ⟨g, addedS, addedF, hg, hadded, hS2, hF2, hS3, h1, h2, h3⟩ :=
      resolveGraphNodes_cold env cfg tr nodes inF outF tc outDir d stop hcold
    obtain ⟨oS1, oS2, -, -⟩ := scan_observations addedS hS2
    obtain ⟨oF1, oF2, -, -, -, -, -⟩ := finish_observations addedF hF2
    refine ⟨g, hg, ?_⟩
    rw [hadded]
    refine ⟨?_, ?_, ?_, ?_⟩
    · simp only [whatProvidesCalls, List.filterMap_append, oF1, List.append_nil] at hS3 ⊢
      exact hS3
    · rw [h1]
      simp [oF2]
    · intro h
      rw [h2 h]
      simpa using oS1
    · intro hstop h
      have hne : g.err ≠ some Err.CacheFailed := by
        rw [Ne, h1]
        simp [hstop]
      rw [h3 hne]
      simpa [oS2] using h

/-- Scenario D: three unresolved nodes, the provider query of the second fails,
no stop on failure.  All three are queried, the run returns nil, the first and
third node are cached and the second is left unresolved. -/
theorem resolveGraphNodes_continues_witness :
    ∃ g, resolveGraphNodes envScenarioD sampleConfig [] scenarioD "" "" [] "/out" false false =
        some g ∧
      whatProvidesCalls g.trace = [⟨"a", "", ""⟩, ⟨"missing", "", ""⟩, ⟨"b", "", ""⟩] ∧
      g.err = none ∧
      g.nodes.map (fun n => n.State) =
        [NodeState.Cached, NodeState.Unresolved, NodeState.Cached] := by
  obtain ⟨-, g, hg, h1, -, -, h4⟩ := resolveGraphNodes_continues envScenarioD sampleConfig []
    scenarioD "" "" [] "/out" false false (by decide)
  have hev : (resolveGraphNodes envScenarioD sampleConfig [] scenarioD "" "" [] "/out"
      false false).map (fun g => ((addedTo [] g.trace).any Event.isFinishFailure,
        g.nodes.map (fun n => n.State))) =
      some (false, [NodeState.Cached, NodeState.Unresolved, NodeState.Cached]) := by
    decide
  rw [hg] at hev
  simp only [Option.map_some', Option.some.injEq, Prod.mk.injEq] at hev
  exact ⟨g, hg, h1, h4 rfl hev.1, hev.2⟩

/-- C9: `resolveGraphNodes` returns a graph with as many nodes, and every node
that was not unresolved when it started is the same node, field for field,
when it returns. -/
theorem resolved_nodes_untouched (env : Collaborators) (cfg : Config) (tr : List Event)
    (nodes : List PkgNode) (inF outF : String) (tc : List String) (outDir : String)
    (d stop : Bool) :
    ∃ g, resolveGraphNodes env cfg tr nodes inF outF tc outDir d stop = some g ∧
      g.nodes.length = nodes.length ∧
      ∀ (i : Nat) (n : PkgNode), nodes[i]? = some n → n.State ≠ NodeState.Unresolved →
        g.nodes[i]? = some n := by
  unfold resolveGraphNodes
  by_cases hcold : trimSpace inF = ""
  · simp only [hcold, if_true]
    obtain ⟨s, addedS, hs, -, -, -, -, hS5⟩ :=
      scanNodes_added env cfg tc outDir nodes tr Caches.empty true
    simp only [hs]
    generalize hgdef : finishRun env outF stop s.nodes s.trace s.cachingSucceeded = g
    obtain ⟨addedF, -, hF, -⟩ := finishRun_added _ _ _ _ _ _ g hgdef
    refine ⟨g, rfl, ?_, ?_⟩
    · rw [hF]
      exact hS5.length_eq.symm
    · intro i n hi hn
      rw [hF]
      obtain ⟨b, hb, hR⟩ := forall₂_getElem? _ _ hS5 i n hi
      rw [hb, hR hn]
  · simp only [hcold, if_false]
    generalize hgdef : finishRun env outF stop nodes _ _ = g
    obtain ⟨addedF, -, hF, -⟩ := finishRun_added _ _ _ _ _ _ g hgdef
    refine ⟨g, rfl, ?_, ?_⟩
    · rw [hF]
    · intro i n hi _
      rw [hF]
      exact hi

/-- A graph of a node cached by an earlier run and an unresolved node: after the
cold path the first is as it was and the second is cached. -/
theorem resolved_nodes_untouched_witness :
    ∃ g, resolveGraphNodes envTwoInstallable sampleConfig []
        [cachedNode, unresolvedNode 1 "a" false] "" "" [] "/out" false false = some g ∧
      g.nodes[0]? = some cachedNode ∧
      g.nodes.map (fun n => n.State) = [NodeState.Cached, NodeState.Cached] := by
  obtain ⟨g, hg, -, h⟩ := resolved_nodes_untouched envTwoInstallable sampleConfig []
    [cachedNode, unresolvedNode 1 "a" false] "" "" [] "/out" false false
  have hev : (resolveGraphNodes envTwoInstallable sampleConfig []
      [cachedNode, unresolvedNode 1 "a" false] "" "" [] "/out" false false).map
      (fun g => g.nodes.map (fun n => n.State)) =
      some [NodeState.Cached, NodeState.Cached] := by
    decide
  rw [hg] at hev
  simp only [Option.map_some', Option.some.injEq] at hev
  exact ⟨g, hg, h 0 cachedNode rfl (by decide), hev⟩

/-! ## The path invariant -/

/-- C7, amended: for an unresolved node with an empty path `resolveSingleNode`
returns, and the path invariant holds afterwards unless the solver failed: a
node resolved without error is no longer unresolved and has a non-empty path;
a node that failed on the provider query, on an empty provider list or on a
clone is unchanged.  When the solver failed the node is still unresolved and
its path is not empty. -/
theorem path_invariant_unless_solver_fails (env : Collaborators) (cfg : Config)
    (tr : List Event) (n : PkgNode) (tc : List String) (c : Caches) (outDir : String)
    (hstate : n.State = NodeState.Unresolved) (hpath : n.RpmPath = "") :
    ∃ r, resolveSingleNode env cfg tr n tc c outDir = some r ∧
      ((addedTo tr r.trace).any Event.isSolverFailure = false → PathInvariant r.node) ∧
      (r.err = none → r.node.State ≠ NodeState.Unresolved ∧ r.node.RpmPath ≠ "") ∧
      (r.err ≠ none → (addedTo tr r.trace).any Event.isSolverFailure = false → r.node = n) ∧
      ((addedTo tr r.trace).any Event.isSolverFailure = true →
        r.err ≠ none ∧ r.node.State = NodeState.Unresolved ∧ r.node.RpmPath ≠ "") := by
  obtain ⟨r, added, hr, h1, -, -, -, -, h6, h7, h8, h9, -⟩ :=
    resolveSingleNode_added env cfg tr n tc c outDir
  refine ⟨r, hr, ?_⟩
  rw [h1, addedTo_append]
  refine ⟨?_, h9, h7, ?_⟩
  · intro hs
    rcases hre : r.err with _ | e
    · obtain ⟨h91, h92⟩ := h9 hre
      exact ⟨fun _ => h91, fun _ => h92⟩
    · have hn : r.node = n := h7 (by rw [hre]; simp) hs
      rw [hn]
      simp [PathInvariant, hstate, hpath]
  · intro hs
    obtain ⟨h81, h82⟩ := h8 hs
    exact ⟨h81, by rw [(h6 h81).1, hstate], h82⟩

/-- An unresolved node with two candidates of which the solver keeps one ends
with the path invariant; the same node with a failing solver is left
unresolved with a non-empty path. -/
theorem path_invariant_unless_solver_fails_witness :
    (∃ r, resolveSingleNode envTwoInstallable sampleConfig [] (unresolvedNode 1 "a" false) []
        Caches.empty "/out" = some r ∧ PathInvariant r.node) ∧
    (∃ r, resolveSingleNode envSolverFails sampleConfig [] (unresolvedNode 1 "a" false) []
        Caches.empty "/out" = some r ∧
      r.node.State = NodeState.Unresolved ∧ r.node.RpmPath ≠ "") := by
  constructor
  · obtain ⟨r, hr, h, -⟩ := path_invariant_unless_solver_fails envTwoInstallable sampleConfig []
      (unresolvedNode 1 "a" false) [] Caches.empty "/out" rfl rfl
    have hev : (resolveSingleNode envTwoInstallable sampleConfig []
        (unresolvedNode 1 "a" false) [] Caches.empty "/out").map
        (fun r => (addedTo [] r.trace).any Event.isSolverFailure) = some false := by
      decide
    rw [hr] at hev
    simp only [Option.map_some', Option.some.injEq] at hev
    exact ⟨r, hr, h hev⟩
  · obtain ⟨r, hr, -, -, -, h⟩ := path_invariant_unless_solver_fails envSolverFails sampleConfig
      [] (unresolvedNode 1 "a" false) [] Caches.empty "/out" rfl rfl
    have hev : (resolveSingleNode envSolverFails sampleConfig []
        (unresolvedNode 1 "a" false) [] Caches.empty "/out").map
        (fun r => (addedTo [] r.trace).any Event.isSolverFailure) = some true := by
      decide
    rw [hr] at hev
    simp only [Option.map_some', Option.some.injEq] at hev
    exact ⟨r, hr, (h hev).2⟩

/-! ## Implicit nodes -/

/-- C5, amended: when the scan reaches an unresolved implicit node whose
provider query fails or returns no candidate, the node is left as it was and
neither `resolveSingleNode` nor the scan logs anything above informational
severity for it.  On the cold path without stop-on-failure the run never
returns the aggregate error, and it returns nil whenever materialization and
the snapshot save did not fail. -/
theorem implicit_failure_tolerated (env : Collaborators) (cfg : Config) (tc : List String)
    (outDir : String) :
    (∀ (n : PkgNode) (tr : List Event) (c : Caches) (ok : Bool),
      n.State = NodeState.Unresolved → n.Implicit = true →
      ∃ s, scanNodes env cfg tc outDir [n] tr c ok = some s ∧
        ((addedTo tr s.trace).any Event.isEmptyQuery = true →
          s.nodes = [n] ∧ (addedTo tr s.trace).any Event.isLoudLog = false)) ∧
    (∀ (tr : List Event) (nodes : List PkgNode) (inF outF : String) (d : Bool),
      trimSpace inF = "" →
      ∃ g, resolveGraphNodes env cfg tr nodes inF outF tc outDir d false = some g ∧
        g.err ≠ some Err.CacheFailed ∧
        ((addedTo tr g.trace).any Event.isFinishFailure = false → g.err = none)) := by
  constructor
  · intro n tr c ok hstate himp
    obtain ⟨r, addedN, hr, hN1, -, -, -, -, -, -, -, -, hL⟩ :=
      resolveSingleNode_added env cfg tr n tc c outDir
    unfold scanNodes
    simp only [hstate, if_true, hr]
    rcases hre : r.err with _ | e
    · refine ⟨_, rfl, ?_⟩
      simp only [scanNodes, Option.map_some', hN1, addedTo_append]
      intro hq
      exact absurd hre (hL himp hq).1
    · refine ⟨_, rfl, ?_⟩
      simp only [scanNodes, Option.map_some', hN1, List.append_assoc, addedTo_append,
        List.any_append]
      intro hq
      have hq' : addedN.any Event.isEmptyQuery = true := by
        simpa [Event.isEmptyQuery] using hq
      obtain ⟨-, h2, h3⟩ := hL himp hq'
      rw [h2, h3]
      simp [Event.isLoudLog, Level.aboveInfo]
  · intro tr nodes inF outF d hcold
    obtain ⟨g, addedS, addedF, hg, hadded, hS2, -, -, h1, -, h3⟩ :=
      resolveGraphNodes_cold env cfg tr nodes inF outF tc outDir d false hcold
    obtain ⟨-, oS2, -, -⟩ := scan_observations addedS hS2
    have hne : g.err ≠ some Err.CacheFailed := fun h => absurd (h1.mp h).1 (by decide)
    refine ⟨g, hg, hne, fun h => ?_⟩
    rw [h3 hne]
    rw [hadded] at h
    simpa [oS2] using h

/-- A graph of one implicit node whose provider query fails, cold path, no stop
on failure: the node is left as it was, nothing is logged above informational
severity and the run returns nil. -/
theorem implicit_failure_tolerated_witness :
    (∃ s, scanNodes envImplicitUnknown sampleConfig [] "/out"
        [unresolvedNode 1 "pkgconfig(foo)" true] [] Caches.empty true = some s ∧
      s.nodes = [unresolvedNode 1 "pkgconfig(foo)" true] ∧
      s.trace.any Event.isLoudLog = false) ∧
    (∃ g, resolveGraphNodes envImplicitUnknown sampleConfig []
        [unresolvedNode 1 "pkgconfig(foo)" true] "" "" [] "/out" false false = some g ∧
      g.err = none) := by
  obtain ⟨h1, h2⟩ := implicit_failure_tolerated envImplicitUnknown sampleConfig [] "/out"
  constructor
  · obtain ⟨s, hs, h⟩ := h1 (unresolvedNode 1 "pkgconfig(foo)" true) [] Caches.empty true
      rfl rfl
    have hev : (scanNodes envImplicitUnknown sampleConfig [] "/out"
        [unresolvedNode 1 "pkgconfig(foo)" true] [] Caches.empty true).map
        (fun s => (addedTo [] s.trace).any Event.isEmptyQuery) = some true := by
      decide
    rw [hs] at hev
    simp only [Option.map_some', Option.some.injEq] at hev
    exact ⟨s, hs, (h hev).1, (h hev).2⟩
  · obtain ⟨g, hg, -, h⟩ := h2 [] [unresolvedNode 1 "pkgconfig(foo)" true] "" "" false
      (by decide)
    have hev : (resolveGraphNodes envImplicitUnknown sampleConfig []
        [unresolvedNode 1 "pkgconfig(foo)" true] "" "" [] "/out" false false).map
        (fun g => (addedTo [] g.trace).any Event.isFinishFailure) = some false := by
      decide
    rw [hg] at hev
    simp only [Option.map_some', Option.some.injEq] at hev
    exact ⟨g, hg, h hev⟩

/-! ## Counting clones -/

theorem clones_returned (l : List Event)
    (h : ∀ e ∈ l, (∃ n r, e = Event.Clone true n r) ∨ ∃ lvl f, e = Event.Log lvl f) :
    (∀ q, returnedBy q l = false) ∧ l.any Event.isCloneFailure = l.any Event.isFailure := by
  constructor
  · intro q
    rw [returnedBy, List.any_eq_false]
    intro e he
    rcases h e he with ⟨n, r, rfl⟩ | ⟨lvl, f, rfl⟩ <;> simp [Event.provides, Event.providers]
  · induction l with
    | nil => rfl
    | cons e l ih =>
      have ih' := ih (fun e he => h e (List.mem_cons_of_mem _ he))
      simp only [List.any_cons, ih']
      congr 1
      rcases h e (List.mem_cons_self _ _) with ⟨n, r, rfl⟩ | ⟨lvl, f, rfl⟩
      · cases r <;> rfl
      · rfl

theorem solver_returned (l : List Event)
    (h : ∀ e ∈ l, e.isSolverCall = true ∨ ∃ lvl f, e = Event.Log lvl f) :
    (∀ q, returnedBy q l = false) ∧ l.any Event.isCloneFailure = false := by
  constructor
  · intro q
    rw [returnedBy, List.any_eq_false]
    intro e he
    rcases h e he with hs | ⟨lvl, f, rfl⟩
    · obtain ⟨root, paths, res, rfl⟩ := solverCall_cases e hs
      simp [Event.provides, Event.providers]
    · simp [Event.provides, Event.providers]
  · rw [List.any_eq_false]
    intro e he
    rcases h e he with hs | ⟨lvl, f, rfl⟩
    · obtain ⟨root, paths, res, rfl⟩ := solverCall_cases e hs
      simp [Event.isCloneFailure]
    · simp [Event.isCloneFailure]

/-- The clone loop, counted: when it ends without error, the providers marked
fetched are those that were and those of the list, and each provider of the
list that was not marked has been cloned once, no other at all. -/
theorem cloneLoop_counts (env : Collaborators) (ps : List String) :
    ∀ (tr : List Event) (c : Caches) (pb : Bool),
    ∃ added, (cloneLoop env ps tr c pb).trace = tr ++ added ∧
      (∀ e ∈ added, (∃ n r, e = Event.Clone true n r) ∨ ∃ lvl f, e = Event.Log lvl f) ∧
      (cloneLoop env ps tr c pb).err.isSome = added.any Event.isFailure ∧
      ((cloneLoop env ps tr c pb).err = none →
        (∀ q, (cloneLoop env ps tr c pb).caches.fetchedPackages q =
          (c.fetchedPackages q || decide (q ∈ ps))) ∧
        (∀ q, cloneCount q added =
          if c.fetchedPackages q = false ∧ q ∈ ps then 1 else 0)) := by
  induction ps with
  | nil =>
    intro tr c pb
    exact ⟨[], by simp [cloneLoop], by simp, by simp [cloneLoop],
      fun _ => ⟨by simp [cloneLoop], by simp [cloneCount]⟩⟩
  | cons p ps ih =>
    intro tr c pb
    unfold cloneLoop
    by_cases hf : c.fetchedPackages p = true
    · simp only [hf, Bool.not_true, Bool.false_eq_true, if_false]
      obtain ⟨added, h1, h2, h3, h4⟩ := ih tr c pb
      refine ⟨added, h1, h2, h3, fun herr => ?_⟩
      obtain ⟨h5, h6⟩ := h4 herr
      refine ⟨fun q => ?_, fun q => ?_⟩
      · rw [h5 q]
        by_cases hq : q = p
        · subst hq; simp [hf]
        · simp [hq]
      · rw [h6 q]
        by_cases hq : q = p
        · subst hq; simp [hf]
        · simp [hq]
    · simp only [hf, Bool.not_false, if_true]
      have hf' : c.fetchedPackages p = false := by simpa using hf
      generalize env.Clone tr true p = res
      rcases res with e | b
      · exact ⟨_, List.append_assoc _ _ _, by simp, by simp [Event.isFailure],
          fun h => by simp at h⟩
      · obtain ⟨added, h1, h2, h3, h4⟩ := ih
          (tr ++ [Event.Clone true p (.ok b)] ++
            [Event.Log Level.Debug "Fetched '%s' as potential candidate (is pre-built: %v)."])
          ⟨mapSet c.fetchedPackages p true, mapSet c.prebuiltPackages p b⟩ b
        refine ⟨?w, ?h1, ?h2, ?h3, ?h4⟩
        case h1 =>
          dsimp only
          rw [h1, List.append_assoc, List.append_assoc]
          exact rfl
        case h2 =>
          intro e he
          simp only [List.mem_cons, List.mem_append, List.mem_singleton, List.not_mem_nil,
            or_false] at he
          rcases he with he | he | he
          · exact Or.inl ⟨_, _, he⟩
          · exact Or.inr ⟨_, _, he⟩
          · exact h2 e he
        case h3 =>
          dsimp only
          rw [h3]
          simp [Event.isFailure]
        case h4 =>
          dsimp only
          intro herr
          obtain ⟨h5, h6⟩ := h4 herr
          refine ⟨fun q => ?_, fun q => ?_⟩
          · rw [h5 q]
            by_cases hq : q = p
            · subst hq; simp [mapSet]
            · simp [mapSet, hq]
          · simp only [cloneCount, List.countP_append, List.countP_cons, List.countP_nil,
              Event.isCloneOf] at h6 ⊢
            rw [h6 q]
            by_cases hq : q = p
            · subst hq; simp [mapSet, hf']
            · have hq' : ¬ p = q := fun h => hq h.symm
              simp [mapSet, hq, hq']

theorem cloneLoop_counts_of_eq (env : Collaborators) (ps : List String) (tr : List Event)
    (c : Caches) (pb : Bool) (cl : CloneResult) (h : cloneLoop env ps tr c pb = cl) :
    ∃ added, cl.trace = tr ++ added ∧
      (∀ e ∈ added, (∃ n r, e = Event.Clone true n r) ∨ ∃ lvl f, e = Event.Log lvl f) ∧
      cl.err.isSome = added.any Event.isFailure ∧
      (cl.err = none →
        (∀ q, cl.caches.fetchedPackages q = (c.fetchedPackages q || decide (q ∈ ps))) ∧
        (∀ q, cloneCount q added =
          if c.fetchedPackages q = false ∧ q ∈ ps then 1 else 0)) := by
  subst h
  exact cloneLoop_counts env ps tr c pb

/-- One call of the node resolver, counted: unless a clone failed, the
providers marked fetched afterwards are those that were and those the query
returned, and each returned provider that was not marked has been cloned once,
no other at all. -/
theorem resolveSingleNode_counts (env : Collaborators) (cfg : Config) (tr : List Event)
    (n : PkgNode) (tc : List String) (c : Caches) (outDir : String) :
    ∃ r added, resolveSingleNode env cfg tr n tc c outDir = some r ∧
      r.trace = tr ++ added ∧
      (added.any Event.isCloneFailure = false →
        (∀ q, r.caches.fetchedPackages q = (c.fetchedPackages q || returnedBy q added)) ∧
        (∀ q, cloneCount q added =
          if c.fetchedPackages q = false ∧ returnedBy q added = true then 1 else 0)) := by
  unfold resolveSingleNode
  dsimp only
  generalize env.WhatProvides _ n.VersionedPkg = res
  rcases res with e | ps
  · refine ⟨_, ?w1, rfl, ?h1, ?rest1⟩
    case h1 =>
      dsimp only
      rw [List.append_assoc, List.append_assoc]
      exact rfl
    case rest1 =>
      simp [returnedBy, cloneCount, Event.provides, Event.providers, Event.isCloneOf]
  · rcases ps with _ | ⟨p, ps⟩
    · simp only [List.length_nil, if_true]
      refine ⟨_, ?w2, rfl, ?h2, ?rest2⟩
      case h2 =>
        dsimp only
        rw [List.append_assoc]
        exact rfl
      case rest2 =>
        simp [returnedBy, cloneCount, Event.provides, Event.providers, Event.isCloneOf]
    · simp only [List.length_cons, Nat.add_one_ne_zero, if_false]
      generalize hcl : cloneLoop env (p :: ps) _ c false = cl
      obtain ⟨addedC, hC1, hC2, hC3, hC4⟩ := cloneLoop_counts_of_eq _ _ _ _ _ _ hcl
      obtain ⟨rC1, rC2⟩ := clones_returned addedC hC2
      simp only [returnedBy] at rC1
      rcases hce : cl.err with _ | ce
      · obtain ⟨hfC, hcC⟩ := hC4 hce
        simp only [cloneCount] at hcC
        dsimp only
        generalize ha : assignRPMPath env cfg cl.trace n outDir (p :: ps) = oa
        obtain ⟨a, addedA, rfl, hA1, hA2, -, -, -⟩ :=
          assignRPMPath_added_of_eq _ _ _ _ _ _ _ _ ha
        obtain ⟨rA1, rA2⟩ := solver_returned addedA hA2
        obtain ⟨-, -, -, -, -, rA3⟩ := solver_observations addedA hA2
        simp only [returnedBy] at rA1
        simp only [cloneCount] at rA3
        obtain ⟨tra, na, ea⟩ := a
        dsimp only at hA1 ⊢
        rcases ea with _ | ae
        · dsimp only
          by_cases hcond : ((cl.preBuilt || cl.caches.prebuiltPackages na.RpmPath) &&
              isToolchainPackage na.RpmPath tc) = true
          · simp only [hcond, if_true]
            refine ⟨_, ?w4, rfl, ?h4, ?rest4⟩
            case h4 =>
              dsimp only
              rw [hA1, hC1, List.append_assoc, List.append_assoc, List.append_assoc,
                List.append_assoc]
              exact rfl
            case rest4 =>
              intro _
              simp only [returnedBy, cloneCount, List.any_append, List.countP_append,
                rC1, rA1, rA3, hfC, hcC]
              simp [Event.provides, Event.providers, Event.isCloneOf]
          · simp only [hcond, if_false]
            refine ⟨_, ?w5, rfl, ?h5, ?rest5⟩
            case h5 =>
              dsimp only
              rw [hA1, hC1, List.append_assoc, List.append_assoc, List.append_assoc,
                List.append_assoc]
              exact rfl
            case rest5 =>
              intro _
              simp only [returnedBy, cloneCount, List.any_append, List.countP_append,
                rC1, rA1, rA3, hfC, hcC]
              simp [Event.provides, Event.providers, Event.isCloneOf]
        · dsimp only
          refine ⟨_, ?w6, rfl, ?h6, ?rest6⟩
          case h6 =>
            dsimp only
            rw [hA1, hC1, List.append_assoc, List.append_assoc, List.append_assoc,
              List.append_assoc]
            exact rfl
          case rest6 =>
            intro _
            simp only [returnedBy, cloneCount, List.any_append, List.countP_append,
              rC1, rA1, rA3, hfC, hcC]
            simp [Event.provides, Event.providers, Event.isCloneOf]
      · dsimp only
        refine ⟨_, ?w3, rfl, ?h3, ?rest3⟩
        case h3 =>
          dsimp only
          rw [hC1, List.append_assoc, List.append_assoc]
          exact rfl
        case rest3 =>
          rw [hce] at hC3
          intro h
          simp only [List.any_append, rC2, ← hC3] at h
          simp at h

theorem count_step (x y z : Bool) (a b : Nat)
    (ha : a = if x = false ∧ y = true then 1 else 0)
    (hb : b = if (x || y) = false ∧ z = true then 1 else 0) :
    a + b = if x = false ∧ (y || z) = true then 1 else 0 := by
  subst ha hb
  cases x <;> cases y <;> cases z <;> rfl

/-- The scan, counted: unless a clone failed, the providers marked fetched
afterwards are those that were and those some query returned, and each
returned provider that was not marked has been cloned once, no other at all. -/
theorem scanNodes_counts (env : Collaborators) (cfg : Config) (tc : List String)
    (outDir : String) (nodes : List PkgNode) :
    ∀ (tr : List Event) (c : Caches) (ok : Bool),
    ∃ s added, scanNodes env cfg tc outDir nodes tr c ok = some s ∧
      s.trace = tr ++ added ∧
      (added.any Event.isCloneFailure = false →
        (∀ q, s.caches.fetchedPackages q = (c.fetchedPackages q || returnedBy q added)) ∧
        (∀ q, cloneCount q added =
          if c.fetchedPackages q = false ∧ returnedBy q added = true then 1 else 0)) := by
  induction nodes with
  | nil =>
    intro tr c ok
    exact ⟨_, [], rfl, by simp,
      fun _ => ⟨by simp [returnedBy], by simp [cloneCount, returnedBy]⟩⟩
  | cons n rest ih =>
    intro tr c ok
    unfold scanNodes
    by_cases hn : n.State = NodeState.Unresolved
    · simp only [hn, if_true]
      obtain ⟨r, addedN, hr, hN1, hN2⟩ := resolveSingleNode_counts env cfg tr n tc c outDir
      simp only [hr]
      have key : ∀ (tr' : List Event) (ok' : Bool) (mid : List Event),
          tr' = r.trace ++ mid → (∀ q, returnedBy q mid = false) →
          (∀ q, cloneCount q mid = 0) →
          ∃ s added, (scanNodes env cfg tc outDir rest tr' r.caches ok').map
              (fun s => { s with nodes := r.node :: s.nodes }) = some s ∧
            s.trace = tr ++ added ∧
            (added.any Event.isCloneFailure = false →
              (∀ q, s.caches.fetchedPackages q =
                (c.fetchedPackages q || returnedBy q added)) ∧
              (∀ q, cloneCount q added =
                if c.fetchedPackages q = false ∧ returnedBy q added = true then 1 else 0)) := by
        intro tr' ok' mid htr' hmid1 hmid2
        obtain ⟨s, added, hs, h1, h2⟩ := ih tr' r.caches ok'
        simp only [hs, Option.map_some']
        refine ⟨_, addedN ++ (mid ++ added), rfl, ?_, ?_⟩
        · simp only [h1, htr', hN1, List.append_assoc]
        · intro hcf
          simp only [List.any_append, Bool.or_eq_false_iff] at hcf
          obtain ⟨fN, cN⟩ := hN2 hcf.1
          obtain ⟨fS, cS⟩ := h2 hcf.2.2
          have eret : ∀ q, returnedBy q (addedN ++ (mid ++ added)) =
              (returnedBy q addedN || returnedBy q added) := by
            intro q
            have := hmid1 q
            simp only [returnedBy] at this ⊢
            simp [List.any_append, this]
          refine ⟨fun q => ?_, fun q => ?_⟩
          · dsimp only
            rw [fS q, fN q, eret q, Bool.or_assoc]
          · have ecount : cloneCount q (addedN ++ (mid ++ added)) =
                cloneCount q addedN + cloneCount q added := by
              have := hmid2 q
              simp only [cloneCount] at this ⊢
              simp [List.countP_append, this]
            rw [ecount, eret q]
            exact count_step _ _ _ _ _ (cN q) (by rw [cS q, fN q])
      rcases hre : r.err with _ | e
      · exact key r.trace ok [] (by simp) (fun _ => rfl) (fun _ => rfl)
      · exact key _ false _ rfl (fun _ => by simp [returnedBy, Event.provides, Event.providers])
          (fun _ => by simp [cloneCount, Event.isCloneOf])
    · simp only [hn, if_false]
      obtain ⟨s, added, hs, h1, h2⟩ := ih tr c ok
      simp only [hs, Option.map_some']
      exact ⟨_, added, rfl, h1, h2⟩

/-- C3, amended: on the cold path `resolveGraphNodes` returns, and in a run in
which no clone failed the clone operation has been invoked exactly once for
every provider some provider query of the run returned, and not at all for
any other provider. -/
theorem clone_once_unless_clone_fails (env : Collaborators) (cfg : Config) (tr : List Event)
    (nodes : List PkgNode) (inF outF : String) (tc : List String) (outDir : String)
    (d stop : Bool) (hcold : trimSpace inF = "") :
    ∃ g, resolveGraphNodes env cfg tr nodes inF outF tc outDir d stop = some g ∧
      ((addedTo tr g.trace).any Event.isCloneFailure = false →
        ∀ q, cloneCount q (addedTo tr g.trace) =
          if returnedBy q (addedTo tr g.trace) = true then 1 else 0) := by
  unfold resolveGraphNodes
  simp only [hcold, if_true]
  obtain ⟨s, addedS, hs, hS1, hS2⟩ :=
    scanNodes_counts env cfg tc outDir nodes tr Caches.empty true
  simp only [hs]
  generalize hgdef : finishRun env outF stop s.nodes s.trace s.cachingSucceeded = g
  obtain ⟨addedF, hF1, -, hF2, -⟩ := finishRun_added _ _ _ _ _ _ g hgdef
  obtain ⟨-, -, -, -, -, oF1, oF2⟩ := finish_observations addedF hF2
  have hadded : addedTo tr g.trace = addedS ++ addedF := by
    rw [hF1, hS1, List.append_assoc, addedTo_append]
  refine ⟨g, rfl, ?_⟩
  rw [hadded]
  intro hcf q
  simp only [List.any_append, Bool.or_eq_false_iff] at hcf
  obtain ⟨-, cS⟩ := hS2 hcf.1
  have hret : returnedBy q addedF = false := by
    rw [returnedBy, List.any_eq_false]
    intro e he
    simp [Event.provides, oF2 e he]
  have e1 : returnedBy q (addedS ++ addedF) = returnedBy q addedS := by
    simp only [returnedBy] at hret ⊢
    simp [List.any_append, hret]
  have e2 : cloneCount q (addedS ++ addedF) = cloneCount q addedS := by
    have := oF1 q
    simp only [cloneCount] at this ⊢
    simp [List.countP_append, this]
  rw [e1, e2, cS q]
  simp [Caches.empty]

/-- Scenario C: two unresolved nodes requiring `libfoo`, both resolved by
`libfoo-1.0-1`; the clone is invoked once and both nodes get the same path. -/
theorem clone_once_unless_clone_fails_witness :
    ∃ g, resolveGraphNodes envShared sampleConfig []
        [unresolvedNode 1 "libfoo" false, unresolvedNode 2 "libfoo" false] "" "" [] "/out"
        false false = some g ∧
      cloneCount "libfoo-1.0-1" g.trace = 1 ∧
      g.nodes.map (fun n => n.RpmPath) =
        ["/out/libfoo-1.0-1.rpm", "/out/libfoo-1.0-1.rpm"] := by
  obtain ⟨g, hg, h⟩ := clone_once_unless_clone_fails envShared sampleConfig []
    [unresolvedNode 1 "libfoo" false, unresolvedNode 2 "libfoo" false] "" "" [] "/out"
    false false (by decide)
  have hev : (resolveGraphNodes envShared sampleConfig []
      [unresolvedNode 1 "libfoo" false, unresolvedNode 2 "libfoo" false] "" "" [] "/out"
      false false).map (fun g => ((addedTo [] g.trace).any Event.isCloneFailure,
        returnedBy "libfoo-1.0-1" (addedTo [] g.trace), g.nodes.map (fun n => n.RpmPath))) =
      some (false, true, ["/out/libfoo-1.0-1.rpm", "/out/libfoo-1.0-1.rpm"]) := by
    decide
  rw [hg] at hev
  simp only [Option.map_some', Option.some.injEq, Prod.mk.injEq] at hev
  have h1 := h hev.1 "libfoo-1.0-1"
  rw [hev.2.1] at h1
  exact ⟨g, hg, h1, hev.2.2⟩

/-! ## Warm start -/

/-- Consequences of a stretch of history added before the graph is looked at. -/
theorem setup_observations (l : List Event) (h : l.all Event.isSetupStep = true) :
    l.any Event.isResolution = false ∧ l.any Event.isRestore = false ∧
    l.any Event.isConvert = false ∧ l.any Event.isWrite = false := by
  rw [List.all_eq_true] at h
  have key : ∀ e ∈ l, e.isResolution = false ∧ e.isRestore = false ∧
      e.isConvert = false ∧ e.isWrite = false := by
    intro e he
    have := h e he
    cases e <;> first
      | exact ⟨rfl, rfl, rfl, rfl⟩
      | exact absurd this (by simp [Event.isSetupStep])
  refine ⟨?_, ?_, ?_, ?_⟩
  · rw [List.any_eq_false]
    exact fun e he => by simp [(key e he).1]
  · rw [List.any_eq_false]
    exact fun e he => by simp [(key e he).2.1]
  · rw [List.any_eq_false]
    exact fun e he => by simp [(key e he).2.2.1]
  · rw [List.any_eq_false]
    exact fun e he => by simp [(key e he).2.2.2]

theorem readToolchain_added (env : Collaborators) (cfg : Config) (tr : List Event)
    (rt : List Event × Option (List String)) (h : readToolchain env cfg tr = rt) :
    ∃ added, rt.1 = tr ++ added ∧ added.all Event.isSetupStep = true := by
  unfold readToolchain at h
  dsimp only at h
  by_cases hlen : cfg.ToolchainManifest.length > 0
  · rw [if_pos hlen] at h
    generalize env.ReadReservedFilesList tr cfg.ToolchainManifest = res at h
    rcases res with e | l
    · subst h
      exact ⟨_, List.append_assoc _ _ _, by simp [Event.isSetupStep]⟩
    · subst h
      exact ⟨_, rfl, by simp [Event.isSetupStep]⟩
  · rw [if_neg hlen] at h
    subst h
    exact ⟨[], by simp, by simp⟩

theorem initializeCloner_added (env : Collaborators) (cfg : Config) (tr : List Event)
    (ini : RunResult) (h : initializeCloner env cfg tr = ini) :
    ∃ added, ini.trace = tr ++ added ∧ added.all Event.isSetupStep = true := by
  unfold initializeCloner at h
  dsimp only at h
  generalize env.Initialize tr cfg.OutDir cfg.TmpDir cfg.WorkerTar cfg.ExistingRpmDir
    cfg.UsePreviewRepo cfg.RepoFiles = res at h
  by_cases hd : cfg.DisableUpstreamRepos = true
  · simp only [hd, Bool.not_true, Bool.false_eq_true, if_false] at h
    subst h
    exact ⟨_, rfl, by simp [Event.isSetupStep]⟩
  · simp only [hd, Bool.not_false, if_true] at h
    generalize env.AddNetworkFiles _ _ _ = res2 at h
    rcases res2 with _ | e
    · subst h
      exact ⟨_, List.append_assoc _ _ _, by simp [Event.isSetupStep]⟩
    · subst h
      refine ⟨?w, ?h1, ?h2⟩
      case h1 =>
        dsimp only
        rw [List.append_assoc, List.append_assoc]
        exact rfl
      case h2 => simp [Event.isSetupStep]

theorem writesOther_of_not_write (graph : List PkgNode) (path : String) (l : List Event)
    (h : l.any Event.isWrite = false) : l.any (Event.writesOther graph path) = false := by
  rw [List.any_eq_false] at h ⊢
  intro e he
  have := h e he
  cases e <;> first
    | (simp [Event.writesOther]; done)
    | exact absurd rfl this

/-- The warm path of `resolveGraphNodes`: it returns, the nodes are those it was
given, and it adds the restore from the snapshot followed by materialization,
snapshot save and log lines; when it returns nil the repository has been
materialized. -/
theorem resolveGraphNodes_warm (env : Collaborators) (cfg : Config) (tr : List Event)
    (nodes : List PkgNode) (inF outF : String) (tc : List String) (outDir : String)
    (d stop : Bool) (og : Option GraphResult) (hwarm : trimSpace inF ≠ "")
    (h : resolveGraphNodes env cfg tr nodes inF outF tc outDir d stop = og) :
    ∃ g answer addedF, og = some g ∧ g.nodes = nodes ∧
      g.trace = tr ++ [Event.RestoreClonedRepoContents inF answer] ++ addedF ∧
      addedF.all Event.isFinishStep = true ∧
      (g.err = none → addedF.any Event.isConvert = true) := by
  unfold resolveGraphNodes at h
  rw [if_neg hwarm] at h
  dsimp only at h
  generalize hgdef : finishRun env outF stop nodes _ _ = g at h
  obtain ⟨addedF, hF1, hF2, hF3, -, -, hF6⟩ := finishRun_added _ _ _ _ _ _ g hgdef
  subst h
  refine ⟨g, _, addedF, rfl, hF2, hF1, hF3, fun hnone => (hF6 ?_).1⟩
  rw [hnone]
  simp

/-- C10, amended: in a run of `ResolvePackages` with a snapshot supplied no
provider query, clone or solver call is made and nothing but the graph read is
written, to the output graph file.  If the graph has an unresolved node and the
run returns nil, the cloner was told to restore from the snapshot, the
repository was materialized and the graph was written.  If the graph has no
unresolved node, the cache is neither restored nor materialized. -/
theorem warm_start (env : Collaborators) (cfg : Config)
    (hwarm : trimSpace cfg.InputSummaryFile ≠ "") :
    (ResolvePackages env cfg).trace.any Event.isResolution = false ∧
    ∀ graph, env.ReadDOTGraphFile [] cfg.InputGraph = .ok graph →
      (ResolvePackages env cfg).trace.any (Event.writesOther graph cfg.OutputGraph) = false ∧
      (hasUnresolvedNodes graph = true → (ResolvePackages env cfg).exit = Exit.Returned none →
        (∃ res, Event.RestoreClonedRepoContents cfg.InputSummaryFile res ∈
          (ResolvePackages env cfg).trace) ∧
        (ResolvePackages env cfg).trace.any Event.isConvert = true ∧
        (ResolvePackages env cfg).trace.any Event.isWrite = true) ∧
      (hasUnresolvedNodes graph = false →
        (ResolvePackages env cfg).trace.any Event.isRestore = false ∧
        (ResolvePackages env cfg).trace.any Event.isConvert = false) := by
  generalize hr : ResolvePackages env cfg = r
  unfold ResolvePackages at hr
  dsimp only at hr
  generalize env.ReadDOTGraphFile [] cfg.InputGraph = rd at hr ⊢
  rcases rd with e | graph0
  · subst hr
    exact ⟨by simp [Event.isResolution], fun graph h => by cases h⟩
  · dsimp only at hr
    generalize hrt : readToolchain env cfg _ = rt at hr
    obtain ⟨addedT, hT1, hT2⟩ := readToolchain_added _ _ _ _ hrt
    obtain ⟨oT1, oT2, oT3, oT4⟩ := setup_observations addedT hT2
    have oT5 := writesOther_of_not_write graph0 cfg.OutputGraph addedT oT4
    obtain ⟨tr1, otc⟩ := rt
    dsimp only at hT1 hr
    subst hT1
    rcases otc with _ | tcs
    · subst hr
      refine ⟨?_, fun graph h => ?_⟩
      · simp only [List.any_append, oT1]
        simp [Event.isResolution]
      · cases h
        simp only [List.any_append, oT2, oT3, oT4, oT5]
        simp [Event.isRestore, Event.isConvert, Event.writesOther]
    · dsimp only at hr
      generalize hini : initializeCloner env cfg _ = ini at hr
      obtain ⟨addedI, hI1, hI2⟩ := initializeCloner_added _ _ _ _ hini
      obtain ⟨oI1, oI2, oI3, oI4⟩ := setup_observations addedI hI2
      have oI5 := writesOther_of_not_write graph0 cfg.OutputGraph addedI oI4
      obtain ⟨tri, ex⟩ := ini
      dsimp only at hI1 hr
      subst hI1
      rcases ex with oe | _ | _
      · rcases oe with _ | err
        · dsimp only at hr
          by_cases hu : hasUnresolvedNodes graph0 = true
          · rw [if_pos hu] at hr
            generalize hog : resolveGraphNodes env cfg _ graph0 cfg.InputSummaryFile
              cfg.OutputSummaryFile tcs cfg.OutDir cfg.DisableUpstreamRepos
              cfg.StopOnFailure = og at hr
            obtain ⟨g, answer, addedF, rfl, hG1, hG2, hG3, hG4⟩ :=
              resolveGraphNodes_warm _ _ _ _ _ _ _ _ _ _ _ hwarm hog
            obtain ⟨-, -, oF1, oF2, oF4, -, -⟩ := finish_observations addedF hG3
            have oF5 := writesOther_of_not_write graph0 cfg.OutputGraph addedF oF4
            obtain ⟨gn, gt, ge⟩ := g
            dsimp only at hG1 hG2 hG4 hr
            subst hG1 hG2
            rcases ge with _ | gerr
            · dsimp only at hr
              unfold writeGraph at hr
              subst hr
              have hconv := hG4 rfl
              refine ⟨?_, fun graph h => ?_⟩
              · simp only [List.any_append, oT1, oI1, oF1]
                simp [Event.isResolution]
              · cases h
                refine ⟨?_, fun _ _ => ⟨⟨answer, by simp⟩, ?_, ?_⟩, fun h => ?_⟩
                · simp only [List.any_append, oT5, oI5, oF5]
                  simp [Event.writesOther]
                · simp only [List.any_append, hconv]
                  simp
                · simp [Event.isWrite]
                · rw [hu] at h
                  cases h
            · dsimp only at hr
              subst hr
              refine ⟨?_, fun graph h => ?_⟩
              · simp only [List.any_append, oT1, oI1, oF1]
                simp [Event.isResolution]
              · cases h
                refine ⟨?_, fun _ h => (by cases h), fun h => ?_⟩
                · simp only [List.any_append, oT5, oI5, oF5]
                  simp [Event.writesOther]
                · rw [hu] at h
                  cases h
          · rw [if_neg hu] at hr
            unfold writeGraph at hr
            subst hr
            refine ⟨?_, fun graph h => ?_⟩
            · simp only [List.any_append, oT1, oI1]
              simp [Event.isResolution]
            · cases h
              refine ⟨?_, fun h => absurd h hu, fun _ => ⟨?_, ?_⟩⟩
              · simp only [List.any_append, oT5, oI5]
                simp [Event.writesOther]
              · simp only [List.any_append, oT2, oI2]
                simp [Event.isRestore]
              · simp only [List.any_append, oT3, oI3]
                simp [Event.isConvert]
        · dsimp only at hr
          subst hr
          refine ⟨?_, fun graph h => ?_⟩
          · simp only [List.any_append, oT1, oI1]
            simp [Event.isResolution]
          · cases h
            simp only [List.any_append, oT2, oT3, oT4, oT5, oI2, oI3, oI4, oI5]
            simp [Event.isRestore, Event.isConvert, Event.writesOther]
      · dsimp only at hr
        subst hr
        refine ⟨?_, fun graph h => ?_⟩
        · simp only [List.any_append, oT1, oI1]
          simp [Event.isResolution]
        · cases h
          simp only [List.any_append, oT2, oT3, oT4, oT5, oI2, oI3, oI4, oI5]
          simp [Event.isRestore, Event.isConvert, Event.writesOther]
      · dsimp only at hr
        subst hr
        refine ⟨?_, fun graph h => ?_⟩
        · simp only [List.any_append, oT1, oI1]
          simp [Event.isResolution]
        · cases h
          simp only [List.any_append, oT2, oT3, oT4, oT5, oI2, oI3, oI4, oI5]
          simp [Event.isRestore, Event.isConvert, Event.writesOther]

/-- A graph of one unresolved node and the snapshot `cache.json`: the run
returns nil without any provider query, clone or solver call, after the restore
from `cache.json`, the materialization and the write of the graph. -/
theorem warm_start_witness :
    (ResolvePackages envOneUnresolved warmConfig).exit = Exit.Returned none ∧
    (ResolvePackages envOneUnresolved warmConfig).trace.any Event.isResolution = false ∧
    (∃ res, Event.RestoreClonedRepoContents "cache.json" res ∈
      (ResolvePackages envOneUnresolved warmConfig).trace) ∧
    (ResolvePackages envOneUnresolved warmConfig).trace.any Event.isConvert = true ∧
    (ResolvePackages envOneUnresolved warmConfig).trace.any Event.isWrite = true := by
  obtain ⟨h1, h2⟩ := warm_start envOneUnresolved warmConfig (by decide)
  obtain ⟨-, h3, -⟩ := h2 [unresolvedNode 1 "a" false] rfl
  have hex : (ResolvePackages envOneUnresolved warmConfig).exit = Exit.Returned none := by
    decide
  exact ⟨hex, h1, h3 (by decide) hex⟩

end Pkgfetcher
